import Mathlib

/-!
# TizenRT: the `netmon` shell command and the i.MX RT USB host interface

Part I embeds `apps/system/utils/netcmd_netmon.c`: the command `cmd_netmon`
together with the C string functions it uses. Output and external calls are
recorded, in program order, as a list of effects.

Part II embeds `os/arch/arm/src/imxrt/usb/host/usb_host.h`: the data types
are those of the header; the bodies of the host functions are not part of
the sources and are modelled from the specification.
-/

namespace Netmon

/-! ## C strings -/

/-- The string terminator. -/
def NUL : Char := Char.ofNat 0

/-- C `strlen`: the number of characters before the first terminator. The
list holds the characters stored at the pointer; the position after the last
one holds the terminator. -/
def strlen : List Char → Nat
  | [] => 0
  | c :: cs => if c = NUL then 0 else strlen cs + 1

/-- C `strncmp`: compares at most `n` characters and stops after a
terminator; zero means equal, otherwise the difference of the first
characters that differ. -/
def strncmp : List Char → List Char → Nat → Int
  | _, _, 0 => 0
  | s1, s2, n + 1 =>
    let c1 := s1.headD NUL
    let c2 := s2.headD NUL
    if c1 ≠ c2 then (c1.toNat : Int) - (c2.toNat : Int)
    else if c1 = NUL then 0
    else strncmp s1.tail s2.tail n

/-- The `n` characters that C `strncpy` writes: the characters of the source
up to its terminator, then terminators until `n` characters are written. -/
def strncpy_chars : List Char → Nat → List Char
  | _, 0 => []
  | [], n + 1 => NUL :: strncpy_chars [] n
  | c :: cs, n + 1 =>
    if c = NUL then NUL :: strncpy_chars [] n else c :: strncpy_chars cs n

/-- C `strncpy(dest, src, n)` on an array `dest`: writes `dest[0 .. n-1]`.
Writing past the end of the array is undefined (`none`). -/
def strncpy (dest src : List Char) (n : Nat) : Option (List Char) :=
  if n ≤ dest.length then some (strncpy_chars src n ++ dest.drop n) else none

/-- The assignment `a[i] = c` on an array; an index outside the array is
undefined (`none`). -/
def store (a : List Char) (i : Nat) (c : Char) : Option (List Char) :=
  if i < a.length then some (a.set i c) else none

/-! ## Declarations that `netcmd_netmon.c` takes from absent headers -/

/-- Build configuration: the two `CONFIG_` options the file tests, the
constant `IFNAMSIZ` of `net/if.h`, and the number of characters of the array
`devname` in `struct netmon_netdev_stats` (`netutils/netlib.h`). -/
structure Config where
  CONFIG_NET_STATS : Bool
  CONFIG_WIFI_MANAGER : Bool
  IFNAMSIZ : Nat
  DEVNAME_LEN : Nat

/-- Modelled from the spec: the macro `OK` is not defined in the sources;
"success path returns 0". -/
def OK : Int := 0

/-- Modelled from the spec: the macro `ERROR` is not defined in the sources;
the error paths "return a negative error code". The value is the one of
TizenRT. -/
def ERROR : Int := -1

/-- The record `struct netmon_sock`: one `char *`, `none` being `NULL`. -/
structure netmon_sock where
  sock_info : Option String
deriving DecidableEq, Repr

/-- The record `struct netmon_netdev_stats`: the name array and the four
counters that `_print_devstats` reads. -/
structure netmon_netdev_stats where
  devname : List Char
  devinpkts : Nat
  devinoctets : Nat
  devoutpkts : Nat
  devoutoctets : Nat
deriving DecidableEq, Repr

/-- An argument of a log call after the format string. -/
inductive Arg where
  /-- A `char *` to a string or to a character array. -/
  | str (s : String)
  /-- A `char *` that may be `NULL`. -/
  | ptr (p : Option String)
  /-- An integer. -/
  | int (n : Nat)
deriving DecidableEq, Repr

/-- What a run of the command does to the outside, in program order. The
log macros `NETCMD_LOG` and `NETCMD_LOGE` come from `netcmd_log.h`, which is
not part of the sources: a log call is recorded with its tag, format string
and arguments. -/
inductive Effect where
  | NETCMD_LOG (tag fmt : String) (args : List Arg)
  | NETCMD_LOGE (tag fmt : String) (args : List Arg)
  /-- The call `netlib_netmon_sock(&info)`, with the record passed in. -/
  | netlib_netmon_sock (info : netmon_sock)
  /-- The call `netlib_netmon_devstats(&stats)`, with the record passed in. -/
  | netlib_netmon_devstats (stats : netmon_netdev_stats)
  /-- The call `free(p)`. -/
  | free (p : Option String)
deriving DecidableEq, Repr

/-- The external calls: each returns its status and the record as it left
it. -/
structure Env where
  netlib_netmon_sock : netmon_sock → Int × netmon_sock
  netlib_netmon_devstats : netmon_netdev_stats → Int × netmon_netdev_stats

/-- The result of a run: the returned status and the effects. -/
structure Outcome where
  ret : Int
  trace : List Effect
deriving DecidableEq, Repr

/-! ## `netcmd_netmon.c` -/

def NTAG : String := "[NETCMD]"

def USAGE : String :=
  "\n usage: netmon [options]\n\n socket information:\n       netmon sock\n\n WiFi Manager stats:\n       netmon wifi\n\n Net device stats:\n       netmon [devname]\n\n"

/-- Source `_print_help`. -/
def _print_help : List Effect :=
  [Effect.NETCMD_LOG NTAG "%s" [Arg.str USAGE]]

/-- Source `_print_sock`. -/
def _print_sock (buf : Option String) : List Effect :=
  [ Effect.NETCMD_LOG NTAG "\n==============================================\n" [],
    Effect.NETCMD_LOG NTAG
      "TCP\tfd\tpname:pid\tconn state\tIP type\tTCP state\tlocal IP\tlocal port\tremote IP\tremote port\n" [],
    Effect.NETCMD_LOG NTAG
      "UDP\tfd\tpname:pid\tconn state\tIP type\tUDP flag\tlocal IP\tlocal port\tremote IP\tremote port\n" [],
    Effect.NETCMD_LOG NTAG
      "RAW\tfd\tpname:pid\tconn state\tIP type\tprotocol\tlocal IP\tremote IP\n" [],
    Effect.NETCMD_LOG NTAG "----------------------------------------------\n" [],
    Effect.NETCMD_LOG NTAG "%s\n" [Arg.ptr buf],
    Effect.NETCMD_LOG NTAG "==============================================\n" [] ]

/-- Source `_print_devstats` (compiled with `CONFIG_NET_STATS`). -/
def _print_devstats (stats : netmon_netdev_stats) : List Effect :=
  [ Effect.NETCMD_LOG NTAG "\n==============================================\n" [],
    Effect.NETCMD_LOG NTAG "IFNAME    RXbyte    RXPKT    TXbyte    TXPKT\n" [],
    Effect.NETCMD_LOG NTAG "----------------------------------------------\n" [],
    Effect.NETCMD_LOG NTAG "%-10s%-10d%-9d"
      [Arg.str (String.mk stats.devname), Arg.int stats.devinoctets, Arg.int stats.devinpkts],
    Effect.NETCMD_LOG NTAG "%-10d%-9d\n" [Arg.int stats.devoutoctets, Arg.int stats.devoutpkts],
    Effect.NETCMD_LOG NTAG "==============================================\n" [] ]

/-- Source `_print_wifi_info`. -/
def _print_wifi_info : Outcome :=
  ⟨ERROR, [Effect.NETCMD_LOGE NTAG "Wi-Fi Manager is not enabled\n" []]⟩

/-- Source `cmd_netmon`, lines 117 to 122: the record that is handed to
`netlib_netmon_devstats`. The initialiser zeroes the record, `strncpy`
copies at most `IFNAMSIZ` characters of `intf`, and `devname[IFNAMSIZ]` is
set to the terminator. -/
def devstats_record (cfg : Config) (intf : String) : Option netmon_netdev_stats :=
  let stats : netmon_netdev_stats := ⟨List.replicate cfg.DEVNAME_LEN NUL, 0, 0, 0, 0⟩
  match strncpy stats.devname intf.toList cfg.IFNAMSIZ with
  | none => none
  | some copied =>
    match store copied cfg.IFNAMSIZ NUL with
    | none => none
    | some named => some ⟨named, stats.devinpkts, stats.devinoctets, stats.devoutpkts,
        stats.devoutoctets⟩

/-- Source `cmd_netmon`, the last `else` block (lines 115 to 133) followed,
where the block does not return, by `return OK`. -/
def cmd_netmon_devname (cfg : Config) (env : Env) (intf : String) : Option Outcome :=
  if cfg.CONFIG_NET_STATS then
    match devstats_record cfg intf with
    | none => none
    | some stats =>
      let r := env.netlib_netmon_devstats stats
      if r.1 = 0 then
        some ⟨OK, Effect.netlib_netmon_devstats stats :: _print_devstats r.2⟩
      else
        some ⟨ERROR, [Effect.netlib_netmon_devstats stats,
          Effect.NETCMD_LOGE NTAG "No device interface %s\n" [Arg.str intf]]⟩
  else
    some ⟨OK, [Effect.NETCMD_LOGE NTAG "No such an option\n" []]⟩

/-- Source `cmd_netmon`, the `sock` block (lines 103 to 112) followed by
`return OK`. -/
def cmd_netmon_sock (env : Env) : Outcome :=
  let info : netmon_sock := ⟨none⟩
  let r := env.netlib_netmon_sock info
  if r.1 ≠ 0 then
    ⟨OK, [Effect.netlib_netmon_sock info,
      Effect.NETCMD_LOGE NTAG "Failed to fetch socket info.\n" []]⟩
  else
    ⟨OK, Effect.netlib_netmon_sock info ::
      (_print_sock r.2.sock_info ++ [Effect.free r.2.sock_info])⟩

/-- Source `cmd_netmon`. Reading `argv[1]` where `argv` has no such entry is
undefined (`none`). -/
def cmd_netmon (cfg : Config) (env : Env) (argc : Int) (argv : List String) : Option Outcome :=
  if argc = 1 ∨ argc > 2 then
    some ⟨OK, _print_help⟩
  else
    match argv.get? 1 with
    | none => none
    | some arg1 =>
      if strncmp arg1.toList "sock".toList (strlen "sock".toList + 1) = 0 then
        some (cmd_netmon_sock env)
      else if strncmp arg1.toList "wifi".toList (strlen "wifi".toList + 1) = 0 then
        some _print_wifi_info
      else
        cmd_netmon_devname cfg env arg1

end Netmon

namespace UsbHost

/-! ## Types of `usb_host.h` -/

/-- Modelled from the spec: the type `usb_status_t` is declared in `usb.h`,
which is not part of the sources. The constructors are the statuses that the
comments of `usb_host.h` name, which are those of the error taxonomy of the
spec (section 7). -/
inductive usb_status_t where
  | kStatus_USB_Success
  | kStatus_USB_Error
  | kStatus_USB_InvalidHandle
  | kStatus_USB_InvalidParameter
  | kStatus_USB_NotSupported
  | kStatus_USB_ControllerNotFound
  | kStatus_USB_AllocFail
  | kStatus_USB_LackSwapBuffer
  | kStatus_USB_TransferFailed
  | kStatus_USB_TransferCancel
deriving DecidableEq, Repr

/-- Modelled from the spec: the macros `USB_ENDPOINT_CONTROL`,
`USB_ENDPOINT_ISOCHRONOUS`, `USB_ENDPOINT_BULK` and `USB_ENDPOINT_INTERRUPT`
come from `usb_spec.h`, which is not part of the sources; the four transfer
types of the spec (control, isochronous, bulk, interrupt), numbered as in
the endpoint descriptor of USB 2.0. -/
def USB_ENDPOINT_CONTROL : Nat := 0

/-- Modelled from the spec: see `USB_ENDPOINT_CONTROL`. -/
def USB_ENDPOINT_ISOCHRONOUS : Nat := 1

/-- Modelled from the spec: see `USB_ENDPOINT_CONTROL`. -/
def USB_ENDPOINT_BULK : Nat := 2

/-- Modelled from the spec: see `USB_ENDPOINT_CONTROL`. -/
def USB_ENDPOINT_INTERRUPT : Nat := 3

/-- Source `usb_host_pipe_init_t`, field by field. -/
structure usb_host_pipe_init_t where
  nakCount : Nat
  maxPacketSize : Nat
  interval : Nat
  endpointAddress : Nat
  direction : Nat
  pipeType : Nat
  hubNumber : Nat
  portNumber : Nat
  hsHubNumber : Nat
  hsHubPort : Nat
  level : Nat
  numberPerUframe : Nat
  deviceAddress : Nat
  speed : Nat
deriving DecidableEq, Repr

/-- Source `usb_host_pipe_t`, field by field, without the link `next` of the
idle pipes: the idle pipes of the pool are the entries whose `open` is 0.
The field `open` ("0 - closed, 1 - open") is written `open_`. -/
structure usb_host_pipe_t where
  currentCount : Nat
  nakCount : Nat
  maxPacketSize : Nat
  interval : Nat
  open_ : Nat
  nextdata01 : Nat
  endpointAddress : Nat
  direction : Nat
  pipeType : Nat
  hubNumber : Nat
  portNumber : Nat
  hsHubNumber : Nat
  hsHubPort : Nat
  level : Nat
  numberPerUframe : Nat
  deviceAddress : Nat
  speed : Nat
deriving DecidableEq, Repr

/-- Modelled from the spec: the states of a transfer (section 4.3). `Idle`
is "Idle (pooled)"; `Allocated` is a transfer checked out by `allocate` and
not bound to a pipe; the terminal states are passed through on the way back
to `Idle` when the completion callback is invoked. -/
inductive transfer_state where
  | Idle
  | Allocated
  | Queued
  | InFlight
deriving DecidableEq, Repr

/-- Source `usb_host_transfer_t`: the fields that the operations of the spec
read or write (`transferPipe` is the handle of the pipe, `none` being
`NULL`), and the state of section 4.3 of the spec. The buffer, the callback
function pointer, the setup packet, the link `next` and the unions of the
backend are left out. -/
structure usb_host_transfer_t where
  transferLength : Nat
  transferSofar : Nat
  callbackParam : Nat
  transferPipe : Option Nat
  direction : Nat
  state : transfer_state
deriving DecidableEq, Repr

/-- One invocation of a completion callback (`host_inner_transfer_callback_t`):
the parameter, the transfer, the pipe it was bound to, the length
transferred and the status. -/
structure transfer_callback where
  param : Nat
  transfer : Nat
  pipe : Option Nat
  dataLen : Nat
  status : usb_status_t
deriving DecidableEq, Repr

/-- Source `usb_host_cancel_param_t`: a pipe handle and a transfer, `none`
being `NULL`. -/
structure usb_host_cancel_param_t where
  pipeHandle : Option Nat
  transfer : Option Nat
deriving DecidableEq, Repr

/-! ## The host functions

`usb_host.h` declares the functions below; their bodies are not part of the
sources. They are modelled from the spec: sections 3, 4.1 to 4.3 and 7. A
handle is the index of the record in its pool. -/

/-- Modelled from the spec: the host context, missing from the sources. The
two pools have a fixed capacity (the lengths of the lists; section 4.1);
`abortRequests` are the transfers whose abort the backend has accepted and
not yet reported (section 4.3, `cancel`); `callbackLog` lists the completion
callbacks invoked so far. -/
structure usb_host_instance_t where
  pipeList : List usb_host_pipe_t
  transferList : List usb_host_transfer_t
  abortRequests : List Nat
  callbackLog : List transfer_callback
deriving DecidableEq, Repr

/-- Modelled from the spec: the backend, opaque to the core (section 2);
missing from the sources. `reserveBandwidth` tells whether the bandwidth of
a pipe can be reserved (section 4.2, `open`); `acceptTransfer` is the status
with which the backend takes a transfer (`Success`, `LackSwapBuffer` or
`Error`; section 4.3, `send`). -/
structure usb_host_backend_t where
  reserveBandwidth : usb_host_pipe_init_t → Bool
  acceptTransfer : usb_host_pipe_t → usb_host_transfer_t → usb_status_t

/-- The index of the first entry that satisfies `p`. -/
def firstIndex {α : Type} (p : α → Bool) : List α → Option Nat
  | [] => none
  | a :: as => if p a then some 0 else (firstIndex p as).map (fun i => i + 1)

def closedPipe : usb_host_pipe_t := ⟨0, 0, 0, 0, 0, 0, 0, 0, 0, 0, 0, 0, 0, 0, 0, 0, 0⟩

def idleTransfer : usb_host_transfer_t := ⟨0, 0, 0, none, 0, transfer_state.Idle⟩

def allocatedTransfer : usb_host_transfer_t := ⟨0, 0, 0, none, 0, transfer_state.Allocated⟩

/-- Modelled from the spec: the body of `USB_HostInit` is missing. "Pools
are fixed capacity, configured at startup": every pipe is closed and every
transfer is idle. -/
def USB_HostInit (maxPipes maxTransfers : Nat) : usb_host_instance_t :=
  ⟨List.replicate maxPipes closedPipe, List.replicate maxTransfers idleTransfer, [], []⟩

/-- Modelled from the spec: the body of `USB_HostMallocTransfer` is missing.
Section 4.1, `allocateTransfer() -> Transfer | AllocFail`: checks a transfer
out of the pool; section 7, "`AllocFail` (pool exhausted)". -/
def USB_HostMallocTransfer (host : usb_host_instance_t) :
    usb_status_t × Option Nat × usb_host_instance_t :=
  match firstIndex (fun t => decide (t.state = transfer_state.Idle)) host.transferList with
  | none => (usb_status_t.kStatus_USB_AllocFail, none, host)
  | some i =>
    (usb_status_t.kStatus_USB_Success, some i,
      { host with transferList := host.transferList.set i allocatedTransfer })

/-- Modelled from the spec: the body of `USB_HostFreeTransfer` is missing.
Sections 4.1 and 4.3, `free`: returns a checked-out transfer to the pool;
`InvalidHandle` for a null or unknown transfer, for a transfer that is still
`Queued` or `InFlight`, and for one that is already in the pool. -/
def USB_HostFreeTransfer (host : usb_host_instance_t) (transfer : Option Nat) :
    usb_status_t × usb_host_instance_t :=
  match transfer with
  | none => (usb_status_t.kStatus_USB_InvalidHandle, host)
  | some i =>
    match host.transferList[i]? with
    | none => (usb_status_t.kStatus_USB_InvalidHandle, host)
    | some t =>
      if t.state = transfer_state.Allocated then
        (usb_status_t.kStatus_USB_Success,
          { host with transferList := host.transferList.set i idleTransfer })
      else (usb_status_t.kStatus_USB_InvalidHandle, host)

/-- Modelled from the spec: the check of `pipeInit` in `open` (section 4.2),
"zero NAK count required for interrupt pipes"; `usb_host.h` has "MUST be
zero for interrupt" at the field `nakCount`. -/
def pipeInitValid (pipeInit : usb_host_pipe_init_t) : Bool :=
  !(decide (pipeInit.pipeType = USB_ENDPOINT_INTERRUPT) && decide (pipeInit.nakCount ≠ 0))

/-- The pipe that `open` sets up from `pipeInit`: open, data toggle 0. -/
def pipeOfInit (pipeInit : usb_host_pipe_init_t) : usb_host_pipe_t :=
  { currentCount := 0, nakCount := pipeInit.nakCount, maxPacketSize := pipeInit.maxPacketSize,
    interval := pipeInit.interval, open_ := 1, nextdata01 := 0,
    endpointAddress := pipeInit.endpointAddress, direction := pipeInit.direction,
    pipeType := pipeInit.pipeType, hubNumber := pipeInit.hubNumber,
    portNumber := pipeInit.portNumber, hsHubNumber := pipeInit.hsHubNumber,
    hsHubPort := pipeInit.hsHubPort, level := pipeInit.level,
    numberPerUframe := pipeInit.numberPerUframe, deviceAddress := pipeInit.deviceAddress,
    speed := pipeInit.speed }

/-- Modelled from the spec: the body of `USB_HostOpenPipe` is missing.
Section 4.2, `open`: validates `pipeInit`, checks out a pipe slot,
initialises the data toggle to 0 and reserves bandwidth; `InvalidHandle` for
a null `pipeInit`, `InvalidParameter` for an invalid one (section 8,
scenario B), `Error` when there is no idle pipe or the reservation fails. -/
def USB_HostOpenPipe (backend : usb_host_backend_t) (host : usb_host_instance_t)
    (pipeInit : Option usb_host_pipe_init_t) :
    usb_status_t × Option Nat × usb_host_instance_t :=
  match pipeInit with
  | none => (usb_status_t.kStatus_USB_InvalidHandle, none, host)
  | some init =>
    if !pipeInitValid init then (usb_status_t.kStatus_USB_InvalidParameter, none, host)
    else
      match firstIndex (fun q => decide (q.open_ = 0)) host.pipeList with
      | none => (usb_status_t.kStatus_USB_Error, none, host)
      | some i =>
        if backend.reserveBandwidth init then
          (usb_status_t.kStatus_USB_Success, some i,
            { host with pipeList := host.pipeList.set i (pipeOfInit init) })
        else (usb_status_t.kStatus_USB_Error, none, host)

/-- A transfer is bound to the pipe `pipe`: it is `Queued` or `InFlight` on
it. -/
def isBound (pipe : Nat) (t : usb_host_transfer_t) : Bool :=
  (decide (t.state = transfer_state.Queued) || decide (t.state = transfer_state.InFlight)) &&
    decide (t.transferPipe = some pipe)

/-- The transfers bound to a pipe, by handle. -/
def boundTransfers (host : usb_host_instance_t) (pipe : Nat) : List Nat :=
  (List.range host.transferList.length).filter
    (fun i => match host.transferList[i]? with
      | none => false
      | some t => isBound pipe t)

/-- Modelled from the spec: the bodies of `USB_HostSend` and `USB_HostRecv`
are missing. Section 4.3, `send` and `recv`: require an open pipe and a
checked-out transfer that is not bound; the transfer becomes `Queued` on the
pipe. `InvalidHandle` for a null or unknown pipe or transfer, otherwise the
status of the backend. -/
def USB_HostSend (backend : usb_host_backend_t) (host : usb_host_instance_t)
    (pipeHandle transfer : Option Nat) : usb_status_t × usb_host_instance_t :=
  match pipeHandle, transfer with
  | some p, some i =>
    match host.pipeList[p]?, host.transferList[i]? with
    | some q, some t =>
      if q.open_ = 1 ∧ t.state = transfer_state.Allocated then
        if backend.acceptTransfer q t = usb_status_t.kStatus_USB_Success then
          let queued : usb_host_transfer_t :=
            { t with transferPipe := some p, transferSofar := 0, state := transfer_state.Queued }
          (usb_status_t.kStatus_USB_Success,
            { host with transferList := host.transferList.set i queued })
        else (backend.acceptTransfer q t, host)
      else (usb_status_t.kStatus_USB_InvalidHandle, host)
    | _, _ => (usb_status_t.kStatus_USB_InvalidHandle, host)
  | _, _ => (usb_status_t.kStatus_USB_InvalidHandle, host)

/-- Modelled from the spec: section 4.3, a `Queued` transfer becomes
`InFlight` "once handed to the backend". -/
def backendIssue (host : usb_host_instance_t) (transfer : Nat) : usb_host_instance_t :=
  match host.transferList[transfer]? with
  | none => host
  | some t =>
    if t.state = transfer_state.Queued then
      let issued : usb_host_transfer_t := { t with state := transfer_state.InFlight }
      { host with transferList := host.transferList.set transfer issued }
    else host

/-- Modelled from the spec: section 4.3, the completion path, on the result
`status` that the backend reports for a transfer. For a transfer that is
`Queued` or `InFlight` the completion callback is invoked once, with the
length transferred, and the transfer is returned to the pool; any other
transfer is left alone. Once the backend has accepted the abort of a
transfer, its callback carries the cancel status: "the call only guarantees
the abort request was accepted; the actual completion callback (with a
cancel status) still arrives later through the normal completion path". The
completed transfer leaves the accepted aborts. -/
def completeTransfer (host : usb_host_instance_t) (transfer : Nat) (status : usb_status_t) :
    usb_host_instance_t :=
  match host.transferList[transfer]? with
  | none => host
  | some t =>
    if t.state = transfer_state.Queued ∨ t.state = transfer_state.InFlight then
      let delivered : usb_status_t :=
        if transfer ∈ host.abortRequests then usb_status_t.kStatus_USB_TransferCancel
        else status
      { host with
        transferList := host.transferList.set transfer idleTransfer,
        abortRequests := host.abortRequests.filter (fun i => decide (i ≠ transfer)),
        callbackLog := host.callbackLog ++
          [⟨t.callbackParam, transfer, t.transferPipe, t.transferSofar, delivered⟩] }
    else host

/-- Modelled from the spec: the body of `USB_HostCancelTransfer` is missing.
Section 4.3, `cancel`: `InvalidHandle` for a null or unknown pipe; for a
null transfer the backend is asked to abort every transfer bound to the
pipe, otherwise the given one if it is bound to the pipe. The call invokes
no callback: "the actual completion callback (with a cancel status) still
arrives later through the normal completion path". -/
def USB_HostCancelTransfer (host : usb_host_instance_t) (pipeHandle transfer : Option Nat) :
    usb_status_t × usb_host_instance_t :=
  match pipeHandle with
  | none => (usb_status_t.kStatus_USB_InvalidHandle, host)
  | some p =>
    match host.pipeList[p]? with
    | none => (usb_status_t.kStatus_USB_InvalidHandle, host)
    | some q =>
      if q.open_ = 0 then (usb_status_t.kStatus_USB_InvalidHandle, host)
      else
        match transfer with
        | none =>
          (usb_status_t.kStatus_USB_Success,
            { host with abortRequests := host.abortRequests ++ boundTransfers host p })
        | some i =>
          (usb_status_t.kStatus_USB_Success,
            { host with abortRequests :=
                host.abortRequests ++ (boundTransfers host p).filter (fun j => decide (j = i)) })

/-- Modelled from the spec: the bodies of the task functions declared in
`usb_host.h` (`USB_HostKhciTaskFunction`, `USB_HostEhciTaskFunction`,
`USB_HostIp3516HsTaskFunction`) are missing. Section 5: the task loop drains
what the backend reports; here the accepted aborts, each completed with the
cancel status through the completion path. -/
def USB_HostTaskFunction (host : usb_host_instance_t) : usb_host_instance_t :=
  host.abortRequests.foldl
    (fun acc i => completeTransfer acc i usb_status_t.kStatus_USB_TransferCancel)
    { host with abortRequests := [] }

/-- Modelled from the spec: what the backend does on its own, from its
interrupt or task-loop context (sections 4.3 and 5): it takes a queued
transfer in flight, or it reports the result of a transfer, which goes
through the completion path. -/
inductive backend_event where
  | issue (transfer : Nat)
  | report (transfer : Nat) (status : usb_status_t)
deriving DecidableEq, Repr

/-- One event of the backend. -/
def backendStep (host : usb_host_instance_t) : backend_event → usb_host_instance_t
  | backend_event.issue t => backendIssue host t
  | backend_event.report t status => completeTransfer host t status

/-- A sequence of events of the backend, in order. -/
def backendRun (host : usb_host_instance_t) (events : List backend_event) :
    usb_host_instance_t :=
  events.foldl backendStep host

/-- A transfer is `Queued` or `InFlight`. -/
def isActive (t : usb_host_transfer_t) : Bool :=
  decide (t.state = transfer_state.Queued) || decide (t.state = transfer_state.InFlight)

/-- The pipe with its flag `open` cleared. -/
def closePipe (q : usb_host_pipe_t) : usb_host_pipe_t := { q with open_ := 0 }

/-- Modelled from the spec: the body of `USB_HostClosePipe` is missing.
Section 4.2, `close`: `InvalidHandle` for a null or unknown handle and for a
pipe that is already closed; otherwise the outstanding transfers of the pipe
are cancelled (through `cancel` with a null transfer) and the slot is
returned to the pool. -/
def USB_HostClosePipe (host : usb_host_instance_t) (pipeHandle : Option Nat) :
    usb_status_t × usb_host_instance_t :=
  match pipeHandle with
  | none => (usb_status_t.kStatus_USB_InvalidHandle, host)
  | some p =>
    match host.pipeList[p]? with
    | none => (usb_status_t.kStatus_USB_InvalidHandle, host)
    | some q =>
      if q.open_ = 0 then (usb_status_t.kStatus_USB_InvalidHandle, host)
      else
        let cancelled := (USB_HostCancelTransfer host (some p) none).2
        (usb_status_t.kStatus_USB_Success,
          { cancelled with pipeList := cancelled.pipeList.set p (closePipe q) })

/-- The number of idle transfers of the pool. -/
def idleTransferCount (host : usb_host_instance_t) : Nat :=
  (host.transferList.filter (fun t => decide (t.state = transfer_state.Idle))).length

/-- The number of idle (closed) pipes of the pool. -/
def idlePipeCount (host : usb_host_instance_t) : Nat :=
  (host.pipeList.filter (fun q => decide (q.open_ = 0))).length

/-! ## Example states -/

/-- A backend that reserves every bandwidth and takes every transfer. -/
def exampleBackend : usb_host_backend_t :=
  ⟨fun _ => true, fun _ _ => usb_status_t.kStatus_USB_Success⟩

/-- A bulk pipe to endpoint 1 of the device with address 1. -/
def bulkPipeInit : usb_host_pipe_init_t :=
  ⟨0, 64, 0, 1, 0, USB_ENDPOINT_BULK, 0, 1, 0, 0, 0, 1, 1, 0⟩

/-- A host with two pipes and three transfers whose pipe 0 is open. -/
def hostOnePipe : usb_host_instance_t :=
  (USB_HostOpenPipe exampleBackend (USB_HostInit 2 3) (some bulkPipeInit)).2.2

/-- The host `hostOnePipe` after two transfers were allocated and sent on
pipe 0 and the first one was handed to the backend: transfer 0 is
`InFlight`, transfer 1 is `Queued`. -/
def hostTwoTransfers : usb_host_instance_t :=
  backendIssue
    (USB_HostSend exampleBackend
      (USB_HostSend exampleBackend
        (USB_HostMallocTransfer (USB_HostMallocTransfer hostOnePipe).2.2).2.2
        (some 0) (some 0)).2
      (some 0) (some 1)).2
    0

/-- The host `hostTwoTransfers` after pipe 1 was opened and a third transfer
was allocated and sent on it: pipe 0 has the transfers 0 and 1, pipe 1 has
the transfer 2. -/
def hostTwoPipes : usb_host_instance_t :=
  (USB_HostSend exampleBackend
    (USB_HostMallocTransfer
      (USB_HostOpenPipe exampleBackend hostTwoTransfers (some bulkPipeInit)).2.2).2.2
    (some 1) (some 2)).2

end UsbHost

namespace UsbHost

/-! ## The event codes of `usb_host.h` -/

/-- Source `usb_host_event_t`: the enumerators, in the order of the
declaration. -/
inductive usb_host_event_t where
  | USB_HOST_EVENT_ATTACHED
  | USB_HOST_EVENT_DETACHED
  | USB_HOST_EVENT_ENUM_FAIL
  | kUSB_HostEventNotSuspended
  | kUSB_HostEventSuspended
  | kUSB_HostEventNotResumed
  | kUSB_HostEventDetectResume
  | kUSB_HostEventResumed
  | kUSB_HostEventL1Sleeped
  | kUSB_HostEventL1SleepNYET
  | kUSB_HostEventL1SleepNotSupport
  | kUSB_HostEventL1SleepError
  | kUSB_HostEventL1NotResumed
  | kUSB_HostEventL1DetectResume
  | kUSB_HostEventL1Resumed
  | USB_HUB_EVENT_ATTACHED
  | USB_HUB_EVENT_DETACHED
deriving DecidableEq, Repr

/-- The condition of the `#if` inside `usb_host_event_t`:
`defined(USB_HOST_CONFIG_LOW_POWER_MODE) && USB_HOST_CONFIG_LOW_POWER_MODE > 0U`.
The option is `none` when the macro is not defined. -/
def lowPowerMode (USB_HOST_CONFIG_LOW_POWER_MODE : Option Nat) : Bool :=
  match USB_HOST_CONFIG_LOW_POWER_MODE with
  | none => false
  | some v => decide (v > 0)

/-- The enumerators that the declaration of `usb_host_event_t` has in a
build, in order: the twelve between `#if` and `#endif` only with the
low-power mode. -/
def usb_host_event_enumerators (USB_HOST_CONFIG_LOW_POWER_MODE : Option Nat) :
    List usb_host_event_t :=
  [usb_host_event_t.USB_HOST_EVENT_ATTACHED, usb_host_event_t.USB_HOST_EVENT_DETACHED,
    usb_host_event_t.USB_HOST_EVENT_ENUM_FAIL] ++
  (if lowPowerMode USB_HOST_CONFIG_LOW_POWER_MODE then
    [usb_host_event_t.kUSB_HostEventNotSuspended, usb_host_event_t.kUSB_HostEventSuspended,
      usb_host_event_t.kUSB_HostEventNotResumed, usb_host_event_t.kUSB_HostEventDetectResume,
      usb_host_event_t.kUSB_HostEventResumed, usb_host_event_t.kUSB_HostEventL1Sleeped,
      usb_host_event_t.kUSB_HostEventL1SleepNYET,
      usb_host_event_t.kUSB_HostEventL1SleepNotSupport,
      usb_host_event_t.kUSB_HostEventL1SleepError, usb_host_event_t.kUSB_HostEventL1NotResumed,
      usb_host_event_t.kUSB_HostEventL1DetectResume, usb_host_event_t.kUSB_HostEventL1Resumed]
  else []) ++
  [usb_host_event_t.USB_HUB_EVENT_ATTACHED, usb_host_event_t.USB_HUB_EVENT_DETACHED]

/-- The values of the enumerators of a C `enum` whose first enumerator has
the value `first` and whose other enumerators have no initialiser: each is
one more than the one before. -/
def enumValues : Nat → List usb_host_event_t → List (usb_host_event_t × Nat)
  | _, [] => []
  | first, e :: es => (e, first) :: enumValues (first + 1) es

/-- The code of an event in a build (`USB_HOST_EVENT_ATTACHED = 1U`); `none`
for an enumerator that the build does not declare. -/
def usb_host_event_code (USB_HOST_CONFIG_LOW_POWER_MODE : Option Nat) (e : usb_host_event_t) :
    Option Nat :=
  ((enumValues 1 (usb_host_event_enumerators USB_HOST_CONFIG_LOW_POWER_MODE)).find?
    (fun x => decide (x.1 = e))).map (fun x => x.2)

/-- Modelled from the spec: the code that builds the callback event code of
an enumeration failure is missing from the sources. The comment at
`USB_HOST_EVENT_ENUM_FAIL` in `usb_host.h` says "fail reason is put in the
high 2 bytes of callback event code", the spec "failure subcode carried
alongside the event code"; the callback takes the code as `uint32_t`. -/
def packEventCode (reason code : Nat) : Nat :=
  ((2 ^ 16 * reason) ||| code) % 2 ^ 32

end UsbHost

/-! # Part I: properties of `cmd_netmon` -/

namespace Netmon

/-- Distinct characters have distinct codes. -/
theorem toNat_sub_ne_zero (c d : Char) (h : c ≠ d) : (c.toNat : Int) - (d.toNat : Int) ≠ 0 := by
  intro hz
  apply h
  have h1 : (c.toNat : Int) = d.toNat := by omega
  have h2 : c.toNat = d.toNat := by exact_mod_cast h1
  exact Char.ext (UInt32.ext (by simpa [Char.toNat, UInt32.toNat] using h2))

/-- Comparing one character more than the length of a literal is whole-string
equality. -/
theorem strncmp_eq_zero_iff (lit : List Char) :
    ∀ s : List Char, NUL ∉ lit → NUL ∉ s → (strncmp s lit (lit.length + 1) = 0 ↔ s = lit) := by
  induction lit with
  | nil =>
    intro s _ hs
    cases s with
    | nil => simp [strncmp]
    | cons c cs =>
      have hc : c ≠ NUL := fun h => hs (by simp [h])
      simp [strncmp, hc, toNat_sub_ne_zero c NUL hc]
  | cons l ls ih =>
    intro s hlit hs
    have hl : l ≠ NUL := fun h => hlit (by simp [h])
    have hls : NUL ∉ ls := fun h => hlit (by simp [h])
    cases s with
    | nil =>
      have hne : NUL ≠ l := fun h => hl h.symm
      simp [strncmp, hne, toNat_sub_ne_zero NUL l hne]
    | cons c cs =>
      have hc : c ≠ NUL := fun h => hs (by simp [h])
      have hcs : NUL ∉ cs := fun h => hs (by simp [h])
      by_cases hcl : c = l
      · subst hcl
        have hrec := ih cs hls hcs
        rw [List.length_cons, strncmp]
        simp only [List.headD_cons, List.tail_cons, ne_eq, not_true_eq_false, if_false, hc]
        rw [hrec]
        simp
      · simp [strncmp, hcl, toNat_sub_ne_zero c l hcl]

/-- The test of `cmd_netmon` for `sock`. -/
theorem strncmp_sock (s : String) (hnul : NUL ∉ s.toList) :
    strncmp s.toList "sock".toList (strlen "sock".toList + 1) = 0 ↔ s = "sock" := by
  have h := strncmp_eq_zero_iff "sock".toList s.toList (by decide) hnul
  have hlen : strlen "sock".toList + 1 = "sock".toList.length + 1 := by decide
  rw [hlen, h]
  exact String.toList_inj

/-- The test of `cmd_netmon` for `wifi`. -/
theorem strncmp_wifi (s : String) (hnul : NUL ∉ s.toList) :
    strncmp s.toList "wifi".toList (strlen "wifi".toList + 1) = 0 ↔ s = "wifi" := by
  have h := strncmp_eq_zero_iff "wifi".toList s.toList (by decide) hnul
  have hlen : strlen "wifi".toList + 1 = "wifi".toList.length + 1 := by decide
  rw [hlen, h]
  exact String.toList_inj

/-- With `argc == 2` the command dispatches on whole-string equality. -/
theorem cmd_netmon_dispatch (cfg : Config) (env : Env) (argv : List String) (arg1 : String)
    (harg : argv.get? 1 = some arg1) (hnul : NUL ∉ arg1.toList) :
    cmd_netmon cfg env 2 argv =
      if arg1 = "sock" then some (cmd_netmon_sock env)
      else if arg1 = "wifi" then some _print_wifi_info
      else cmd_netmon_devname cfg env arg1 := by
  have h2 : ¬ ((2 : Int) = 1 ∨ (2 : Int) > 2) := by decide
  simp only [cmd_netmon, h2, if_false, harg, strncmp_sock arg1 hnul, strncmp_wifi arg1 hnul]

theorem strncpy_chars_length (src : List Char) (n : Nat) : (strncpy_chars src n).length = n := by
  induction n generalizing src with
  | zero => simp [strncpy_chars]
  | succ n ih =>
    cases src with
    | nil => simp [strncpy_chars, ih]
    | cons c cs =>
      by_cases hc : c = NUL <;> simp [strncpy_chars, hc, ih]

/-- The record for `netlib_netmon_devstats` is built without overrun when the
name array has more than `IFNAMSIZ` characters. -/
theorem devstats_record_isSome (cfg : Config) (intf : String)
    (hlen : cfg.IFNAMSIZ < cfg.DEVNAME_LEN) : ∃ stats, devstats_record cfg intf = some stats := by
  have h1 : cfg.IFNAMSIZ ≤ (List.replicate cfg.DEVNAME_LEN NUL).length := by simp; omega
  have h2 : cfg.IFNAMSIZ <
      (strncpy_chars intf.toList cfg.IFNAMSIZ ++
        (List.replicate cfg.DEVNAME_LEN NUL).drop cfg.IFNAMSIZ).length := by
    simp [strncpy_chars_length]; omega
  simp only [devstats_record, strncpy, h1, if_true, store, h2]
  exact ⟨_, rfl⟩

end Netmon

namespace Netmon

/-- C1: in a build that queries device statistics (`CONFIG_NET_STATS`, name
array longer than `IFNAMSIZ`), for every device name (a C string, so without
a terminator inside) other than `sock` and `wifi`, `cmd_netmon` with
`argc == 2` and that name as `argv[1]`, when `netlib_netmon_devstats`
returns non-zero on the record built from the name, calls it once, logs the
error `"No device interface %s\n"` with the name as argument, and returns
`ERROR`, which is negative. -/
theorem cmd_netmon_no_device_interface (cfg : Config) (env : Env) (argv : List String)
    (name : String) (hstats : cfg.CONFIG_NET_STATS = true)
    (hlen : cfg.IFNAMSIZ < cfg.DEVNAME_LEN) (harg : argv.get? 1 = some name)
    (hnul : NUL ∉ name.toList) (hsock : name ≠ "sock") (hwifi : name ≠ "wifi")
    (hfail : ∀ stats, devstats_record cfg name = some stats →
      (env.netlib_netmon_devstats stats).1 ≠ 0) :
    ∃ stats, devstats_record cfg name = some stats ∧
      cmd_netmon cfg env 2 argv =
        some ⟨ERROR, [Effect.netlib_netmon_devstats stats,
          Effect.NETCMD_LOGE NTAG "No device interface %s\n" [Arg.str name]]⟩ ∧
      ERROR < 0 := by
  obtain ⟨stats, hrec⟩ := devstats_record_isSome cfg name hlen
  refine ⟨stats, hrec, ?_, by decide⟩
  rw [cmd_netmon_dispatch cfg env argv name harg hnul]
  simp [hsock, hwifi, cmd_netmon_devname, hstats, hrec, hfail stats hrec]

/-- C1, at `netmon eth0` on a system where the query fails. -/
theorem cmd_netmon_no_device_interface_witness :
    ∃ stats, devstats_record ⟨true, false, 6, 7⟩ "eth0" = some stats ∧
      cmd_netmon ⟨true, false, 6, 7⟩ ⟨fun i => (1, i), fun s => (1, s)⟩ 2 ["netmon", "eth0"] =
        some ⟨ERROR, [Effect.netlib_netmon_devstats stats,
          Effect.NETCMD_LOGE NTAG "No device interface %s\n" [Arg.str "eth0"]]⟩ ∧
      ERROR < 0 :=
  cmd_netmon_no_device_interface ⟨true, false, 6, 7⟩ ⟨fun i => (1, i), fun s => (1, s)⟩
    ["netmon", "eth0"] "eth0" rfl (by decide) rfl (by decide) (by decide) (by decide)
    (fun _ _ => one_ne_zero)

/-- C2: with `argc == 1` or `argc > 2`, whatever `argv` holds (also when it
has no `argv[1]`), `cmd_netmon` logs the usage text once and does nothing
else (no call of `netlib_netmon_sock` or `netlib_netmon_devstats`), and
returns `OK`, which is 0. -/
theorem cmd_netmon_usage (cfg : Config) (env : Env) (argc : Int) (argv : List String)
    (hargc : argc = 1 ∨ argc > 2) :
    cmd_netmon cfg env argc argv = some ⟨OK, [Effect.NETCMD_LOG NTAG "%s" [Arg.str USAGE]]⟩ ∧
      OK = 0 := by
  simp [cmd_netmon, hargc, _print_help, OK]

/-- C2, at `netmon` without arguments and an `argv` that has no `argv[1]`. -/
theorem cmd_netmon_usage_witness :
    cmd_netmon ⟨true, false, 6, 7⟩ ⟨fun i => (0, i), fun s => (0, s)⟩ 1 ["netmon"] =
        some ⟨OK, [Effect.NETCMD_LOG NTAG "%s" [Arg.str USAGE]]⟩ ∧ OK = 0 :=
  cmd_netmon_usage ⟨true, false, 6, 7⟩ ⟨fun i => (0, i), fun s => (0, s)⟩ 1 ["netmon"]
    (Or.inl rfl)

/-- C3: without the WiFi manager (`CONFIG_WIFI_MANAGER` undefined),
`cmd_netmon` with `argc == 2` and `argv[1]` equal to `"wifi"` logs the error
`"Wi-Fi Manager is not enabled\n"`, does nothing else (no external call),
and returns `ERROR`, which is negative. -/
theorem cmd_netmon_wifi_not_enabled (cfg : Config) (env : Env) (argv : List String)
    (_hwm : cfg.CONFIG_WIFI_MANAGER = false) (harg : argv.get? 1 = some "wifi") :
    cmd_netmon cfg env 2 argv =
        some ⟨ERROR, [Effect.NETCMD_LOGE NTAG "Wi-Fi Manager is not enabled\n" []]⟩ ∧
      ERROR < 0 := by
  refine ⟨?_, by decide⟩
  rw [cmd_netmon_dispatch cfg env argv "wifi" harg (by decide)]
  simp [_print_wifi_info]

/-- C3, at `netmon wifi`. -/
theorem cmd_netmon_wifi_not_enabled_witness :
    cmd_netmon ⟨true, false, 6, 7⟩ ⟨fun i => (0, i), fun s => (0, s)⟩ 2 ["netmon", "wifi"] =
        some ⟨ERROR, [Effect.NETCMD_LOGE NTAG "Wi-Fi Manager is not enabled\n" []]⟩ ∧
      ERROR < 0 :=
  cmd_netmon_wifi_not_enabled ⟨true, false, 6, 7⟩ ⟨fun i => (0, i), fun s => (0, s)⟩
    ["netmon", "wifi"] rfl rfl

/-- C4: `cmd_netmon` with `argc == 2` and `argv[1]` equal to `"sock"`, when
`netlib_netmon_sock` returns 0: the effects are, in this order, the one call
of `netlib_netmon_sock` (on a record whose pointer is `NULL`), the lines of
`_print_sock` for the returned buffer (log calls only: the header, then the
buffer with format `"%s\n"`, then the closing rule), and one `free` of the
returned buffer; the status is `OK`, which is 0. -/
theorem cmd_netmon_sock_success (cfg : Config) (env : Env) (argv : List String)
    (harg : argv.get? 1 = some "sock") (hok : (env.netlib_netmon_sock ⟨none⟩).1 = 0) :
    cmd_netmon cfg env 2 argv =
        some ⟨OK,
          [ Effect.netlib_netmon_sock ⟨none⟩,
            Effect.NETCMD_LOG NTAG "\n==============================================\n" [],
            Effect.NETCMD_LOG NTAG
              "TCP\tfd\tpname:pid\tconn state\tIP type\tTCP state\tlocal IP\tlocal port\tremote IP\tremote port\n" [],
            Effect.NETCMD_LOG NTAG
              "UDP\tfd\tpname:pid\tconn state\tIP type\tUDP flag\tlocal IP\tlocal port\tremote IP\tremote port\n" [],
            Effect.NETCMD_LOG NTAG
              "RAW\tfd\tpname:pid\tconn state\tIP type\tprotocol\tlocal IP\tremote IP\n" [],
            Effect.NETCMD_LOG NTAG "----------------------------------------------\n" [],
            Effect.NETCMD_LOG NTAG "%s\n" [Arg.ptr (env.netlib_netmon_sock ⟨none⟩).2.sock_info],
            Effect.NETCMD_LOG NTAG "==============================================\n" [],
            Effect.free (env.netlib_netmon_sock ⟨none⟩).2.sock_info ]⟩ ∧
      OK = 0 := by
  refine ⟨?_, rfl⟩
  rw [cmd_netmon_dispatch cfg env argv "sock" harg (by decide)]
  simp [cmd_netmon_sock, hok, _print_sock]

/-- C4, at `netmon sock` with a query that returns the text `"TCP 3"`. -/
theorem cmd_netmon_sock_success_witness :
    (cmd_netmon ⟨true, false, 6, 7⟩ ⟨fun _ => (0, ⟨some "TCP 3"⟩), fun s => (0, s)⟩ 2
        ["netmon", "sock"]).map (fun o => (o.ret, o.trace.length, o.trace.getLast?)) =
      some (0, 9, some (Effect.free (some "TCP 3"))) := by
  have h := cmd_netmon_sock_success ⟨true, false, 6, 7⟩
    ⟨fun _ => (0, ⟨some "TCP 3"⟩), fun s => (0, s)⟩ ["netmon", "sock"] rfl rfl
  rw [h.1]
  rfl

/-- C5: in a build that queries device statistics (`CONFIG_NET_STATS`, name
array longer than `IFNAMSIZ`), for every device name (a C string, so without
a terminator inside) other than `sock` and `wifi`, `cmd_netmon` with
`argc == 2` and that name as `argv[1]`, when
`netlib_netmon_devstats` returns 0 on the record built from the name, calls
it once, then logs the record as the call left it: the interface name, the
received bytes and packets, the sent bytes and packets, in this order; the
status is `OK`, which is 0. -/
theorem cmd_netmon_devstats_success (cfg : Config) (env : Env) (argv : List String)
    (name : String) (hstats : cfg.CONFIG_NET_STATS = true)
    (hlen : cfg.IFNAMSIZ < cfg.DEVNAME_LEN) (harg : argv.get? 1 = some name)
    (hnul : NUL ∉ name.toList) (hsock : name ≠ "sock") (hwifi : name ≠ "wifi")
    (hok : ∀ stats, devstats_record cfg name = some stats →
      (env.netlib_netmon_devstats stats).1 = 0) :
    ∃ stats, devstats_record cfg name = some stats ∧
      cmd_netmon cfg env 2 argv =
        some ⟨OK,
          [ Effect.netlib_netmon_devstats stats,
            Effect.NETCMD_LOG NTAG "\n==============================================\n" [],
            Effect.NETCMD_LOG NTAG "IFNAME    RXbyte    RXPKT    TXbyte    TXPKT\n" [],
            Effect.NETCMD_LOG NTAG "----------------------------------------------\n" [],
            Effect.NETCMD_LOG NTAG "%-10s%-10d%-9d"
              [ Arg.str (String.mk (env.netlib_netmon_devstats stats).2.devname),
                Arg.int (env.netlib_netmon_devstats stats).2.devinoctets,
                Arg.int (env.netlib_netmon_devstats stats).2.devinpkts ],
            Effect.NETCMD_LOG NTAG "%-10d%-9d\n"
              [ Arg.int (env.netlib_netmon_devstats stats).2.devoutoctets,
                Arg.int (env.netlib_netmon_devstats stats).2.devoutpkts ],
            Effect.NETCMD_LOG NTAG "==============================================\n" [] ]⟩ ∧
      OK = 0 := by
  obtain ⟨stats, hrec⟩ := devstats_record_isSome cfg name hlen
  refine ⟨stats, hrec, ?_, rfl⟩
  rw [cmd_netmon_dispatch cfg env argv name harg hnul]
  simp [hsock, hwifi, cmd_netmon_devname, hstats, hrec, hok stats hrec, _print_devstats]

/-- C5, at `netmon eth0` with a query that fills in the counters 10, 20, 30
and 40. -/
theorem cmd_netmon_devstats_success_witness :
    ∃ stats, devstats_record ⟨true, false, 6, 7⟩ "eth0" = some stats ∧
      cmd_netmon ⟨true, false, 6, 7⟩
          ⟨fun i => (0, i), fun s => (0, ⟨s.devname, 10, 20, 30, 40⟩)⟩ 2 ["netmon", "eth0"] =
        some ⟨OK,
          [ Effect.netlib_netmon_devstats stats,
            Effect.NETCMD_LOG NTAG "\n==============================================\n" [],
            Effect.NETCMD_LOG NTAG "IFNAME    RXbyte    RXPKT    TXbyte    TXPKT\n" [],
            Effect.NETCMD_LOG NTAG "----------------------------------------------\n" [],
            Effect.NETCMD_LOG NTAG "%-10s%-10d%-9d"
              [Arg.str (String.mk stats.devname), Arg.int 20, Arg.int 10],
            Effect.NETCMD_LOG NTAG "%-10d%-9d\n" [Arg.int 40, Arg.int 30],
            Effect.NETCMD_LOG NTAG "==============================================\n" [] ]⟩ ∧
      OK = 0 :=
  cmd_netmon_devstats_success ⟨true, false, 6, 7⟩
    ⟨fun i => (0, i), fun s => (0, ⟨s.devname, 10, 20, 30, 40⟩)⟩ ["netmon", "eth0"] "eth0"
    rfl (by decide) rfl (by decide) (by decide) (by decide) (fun _ _ => rfl)

end Netmon

namespace Netmon

/-- The device-name block never produces the report of `wifi`. -/
theorem cmd_netmon_devname_ne_wifi (cfg : Config) (env : Env) (intf : String) :
    cmd_netmon_devname cfg env intf ≠ some _print_wifi_info := by
  unfold cmd_netmon_devname _print_wifi_info
  cases cfg.CONFIG_NET_STATS
  · simp
  · cases devstats_record cfg intf with
    | none => simp
    | some stats =>
      by_cases hr : (env.netlib_netmon_devstats stats).1 = 0 <;> simp [hr]

/-- The device-name block never calls `netlib_netmon_sock`. -/
theorem cmd_netmon_devname_no_sock (cfg : Config) (env : Env) (intf : String) (o : Outcome)
    (info : netmon_sock) (h : cmd_netmon_devname cfg env intf = some o) :
    Effect.netlib_netmon_sock info ∉ o.trace := by
  unfold cmd_netmon_devname at h
  cases hc : cfg.CONFIG_NET_STATS
  · simp [hc] at h
    subst h
    simp
  · cases hrec : devstats_record cfg intf with
    | none => simp [hc, hrec] at h
    | some stats =>
      by_cases hr : (env.netlib_netmon_devstats stats).1 = 0
      · simp [hc, hrec, hr] at h
        subst h
        simp [_print_devstats]
      · simp [hc, hrec, hr] at h
        subst h
        simp

/-- C6: with `argc == 2` the sub-command is chosen by comparing the whole of
`argv[1]` (a C string, so without a terminator inside), case-sensitively,
first with `"sock"`, then with `"wifi"`: the run
is the socket report when `argv[1]` equals `"sock"`, the report of `wifi`
when it equals `"wifi"`, and the device-name block on `argv[1]` for every
other string. The run calls `netlib_netmon_sock` if and only if `argv[1]`
equals `"sock"`, and it is the report of `wifi` if and only if `argv[1]`
equals `"wifi"`. -/
theorem cmd_netmon_selection (cfg : Config) (env : Env) (argv : List String) (arg1 : String)
    (harg : argv.get? 1 = some arg1) (hnul : NUL ∉ arg1.toList) :
    (cmd_netmon cfg env 2 argv =
      if arg1 = "sock" then some (cmd_netmon_sock env)
      else if arg1 = "wifi" then some _print_wifi_info
      else cmd_netmon_devname cfg env arg1) ∧
    (arg1 = "sock" ↔
      ∃ o, cmd_netmon cfg env 2 argv = some o ∧ Effect.netlib_netmon_sock ⟨none⟩ ∈ o.trace) ∧
    (arg1 = "wifi" ↔ cmd_netmon cfg env 2 argv = some _print_wifi_info) := by
  have hd := cmd_netmon_dispatch cfg env argv arg1 harg hnul
  refine ⟨hd, ?_, ?_⟩
  · constructor
    · intro hs
      refine ⟨cmd_netmon_sock env, by simp [hd, hs], ?_⟩
      unfold cmd_netmon_sock
      by_cases hr : (env.netlib_netmon_sock ⟨none⟩).1 = 0 <;> simp [hr]
    · rintro ⟨o, ho, hmem⟩
      by_contra hs
      rw [hd, if_neg hs] at ho
      by_cases hw : arg1 = "wifi"
      · rw [if_pos hw] at ho
        cases ho
        simp [_print_wifi_info] at hmem
      · rw [if_neg hw] at ho
        exact cmd_netmon_devname_no_sock cfg env arg1 o ⟨none⟩ ho hmem
  · constructor
    · intro hw
      have hs : arg1 ≠ "sock" := by rw [hw]; decide
      rw [hd, if_neg hs, if_pos hw]
    · intro h
      by_contra hw
      by_cases hs : arg1 = "sock"
      · rw [hd, if_pos hs] at h
        have h2 := congrArg (fun x => x.map (fun o => o.trace.head?)) h
        unfold cmd_netmon_sock _print_wifi_info at h2
        by_cases hr : (env.netlib_netmon_sock ⟨none⟩).1 = 0 <;> simp [hr] at h2
      · rw [hd, if_neg hs, if_neg hw] at h
        exact cmd_netmon_devname_ne_wifi cfg env arg1 h

/-- C6, at `netmon socket`: a string that starts with a keyword is a device
name. -/
theorem cmd_netmon_selection_witness :
    cmd_netmon ⟨true, false, 6, 7⟩ ⟨fun i => (0, i), fun s => (0, s)⟩ 2 ["netmon", "socket"] =
      cmd_netmon_devname ⟨true, false, 6, 7⟩ ⟨fun i => (0, i), fun s => (0, s)⟩ "socket" :=
  (cmd_netmon_selection ⟨true, false, 6, 7⟩ ⟨fun i => (0, i), fun s => (0, s)⟩
    ["netmon", "socket"] "socket" rfl (by decide)).1

end Netmon

/-! # Part II: properties of the USB host functions -/

namespace UsbHost

theorem firstIndex_eq_none {α : Type} (p : α → Bool) (l : List α)
    (h : ∀ a ∈ l, p a = false) : firstIndex p l = none := by
  induction l with
  | nil => rfl
  | cons a as ih =>
    have ha : p a = false := h a (List.mem_cons_self a as)
    have has : ∀ b ∈ as, p b = false := fun b hb => h b (List.mem_cons_of_mem a hb)
    simp [firstIndex, ha, ih has]

theorem firstIndex_set {α : Type} (p : α → Bool) (b : α) (hb : p b = true) :
    ∀ (l : List α) (i : Nat), i < l.length → (∀ a ∈ l, p a = false) →
      firstIndex p (l.set i b) = some i := by
  intro l
  induction l with
  | nil => intro i hi; simp at hi
  | cons a as ih =>
    intro i hi h
    have ha : p a = false := h a (List.mem_cons_self a as)
    have has : ∀ c ∈ as, p c = false := fun c hc => h c (List.mem_cons_of_mem a hc)
    cases i with
    | zero => simp [firstIndex, hb]
    | succ j =>
      have hj : j < as.length := by simpa using hi
      simp [firstIndex, ha, ih j hj has]

theorem filter_length_eq_zero {α : Type} (p : α → Bool) (l : List α)
    (h : (l.filter p).length = 0) : ∀ a ∈ l, p a = false := by
  intro a ha
  by_contra hp
  have hpa : p a = true := by simpa using hp
  have hmem : a ∈ l.filter p := List.mem_filter.mpr ⟨ha, hpa⟩
  have hnil : l.filter p = [] := List.length_eq_zero.mp h
  rw [hnil] at hmem
  simp at hmem

theorem filter_length_set {α : Type} (p : α → Bool) (b : α) (hb : p b = true) :
    ∀ (l : List α) (i : Nat) (a : α), l[i]? = some a → p a = false →
      ((l.set i b).filter p).length = (l.filter p).length + 1 := by
  intro l
  induction l with
  | nil => intro i a hi; simp at hi
  | cons c cs ih =>
    intro i a hi ha
    cases i with
    | zero =>
      simp at hi
      subst hi
      simp [List.filter_cons, hb, ha]
    | succ j =>
      have hj : cs[j]? = some a := by simpa using hi
      have hrec := ih j a hj ha
      by_cases hc : p c = true
      · simp [List.filter_cons, hc, hrec]
      · simp [List.filter_cons, hc, hrec]

/-- C7: once the transfer pool is exhausted (no idle transfer is left),
`USB_HostMallocTransfer` fails with `kStatus_USB_AllocFail`, returns no
transfer and leaves the host unchanged; and after a checked-out transfer is
freed with `USB_HostFreeTransfer`, which succeeds, the next
`USB_HostMallocTransfer` succeeds and returns that transfer. -/
theorem USB_HostMallocTransfer_exhausted_then_free (host : usb_host_instance_t)
    (hfull : idleTransferCount host = 0) :
    USB_HostMallocTransfer host = (usb_status_t.kStatus_USB_AllocFail, none, host) ∧
    ∀ (i : Nat) (t : usb_host_transfer_t), host.transferList[i]? = some t →
      t.state = transfer_state.Allocated →
      (USB_HostFreeTransfer host (some i)).1 = usb_status_t.kStatus_USB_Success ∧
      (USB_HostMallocTransfer (USB_HostFreeTransfer host (some i)).2).1 =
        usb_status_t.kStatus_USB_Success ∧
      (USB_HostMallocTransfer (USB_HostFreeTransfer host (some i)).2).2.1 = some i := by
  have hall := filter_length_eq_zero _ host.transferList hfull
  have hnone := firstIndex_eq_none _ host.transferList hall
  refine ⟨by simp [USB_HostMallocTransfer, hnone], ?_⟩
  intro i t hi ht
  have hlt : i < host.transferList.length := by
    rcases List.getElem?_eq_some_iff.mp hi with ⟨hlt, _⟩
    exact hlt
  have hfirst := firstIndex_set (fun t => decide (t.state = transfer_state.Idle)) idleTransfer
    (by decide) host.transferList i hlt hall
  simp [USB_HostFreeTransfer, hi, ht, USB_HostMallocTransfer, hfirst]

/-- C7, on a pool of two transfers that are both checked out. -/
theorem USB_HostMallocTransfer_exhausted_then_free_witness :
    USB_HostMallocTransfer (USB_HostMallocTransfer (USB_HostMallocTransfer
        (USB_HostInit 1 2)).2.2).2.2 =
      (usb_status_t.kStatus_USB_AllocFail, none,
        (USB_HostMallocTransfer (USB_HostMallocTransfer (USB_HostInit 1 2)).2.2).2.2) ∧
    (USB_HostMallocTransfer (USB_HostFreeTransfer (USB_HostMallocTransfer
        (USB_HostMallocTransfer (USB_HostInit 1 2)).2.2).2.2 (some 1)).2).2.1 = some 1 :=
  have h := USB_HostMallocTransfer_exhausted_then_free
    (USB_HostMallocTransfer (USB_HostMallocTransfer (USB_HostInit 1 2)).2.2).2.2 (by decide)
  ⟨h.1, (h.2 1 allocatedTransfer (by decide) (by decide)).2.2⟩

/-- C8: for every `pipeInit` whose transfer type is interrupt and whose NAK
count is not zero, `USB_HostOpenPipe` fails with
`kStatus_USB_InvalidParameter`, returns no pipe and leaves the host, hence
the pipe pool, unchanged. -/
theorem USB_HostOpenPipe_interrupt_nak (backend : usb_host_backend_t)
    (host : usb_host_instance_t) (pipeInit : usb_host_pipe_init_t)
    (htype : pipeInit.pipeType = USB_ENDPOINT_INTERRUPT) (hnak : pipeInit.nakCount ≠ 0) :
    USB_HostOpenPipe backend host (some pipeInit) =
      (usb_status_t.kStatus_USB_InvalidParameter, none, host) := by
  simp [USB_HostOpenPipe, pipeInitValid, htype, hnak]

/-- C8, at an interrupt pipe with NAK count 3 on a host with idle pipes. -/
theorem USB_HostOpenPipe_interrupt_nak_witness :
    USB_HostOpenPipe exampleBackend (USB_HostInit 2 2)
        (some ⟨3, 8, 1, 1, 1, USB_ENDPOINT_INTERRUPT, 0, 1, 0, 0, 0, 1, 1, 0⟩) =
      (usb_status_t.kStatus_USB_InvalidParameter, none, USB_HostInit 2 2) :=
  USB_HostOpenPipe_interrupt_nak exampleBackend (USB_HostInit 2 2)
    ⟨3, 8, 1, 1, 1, USB_ENDPOINT_INTERRUPT, 0, 1, 0, 0, 0, 1, 1, 0⟩ rfl (by decide)

end UsbHost

namespace UsbHost

/-- Closing an open pipe: the status, and the host after it. -/
theorem USB_HostClosePipe_open (host : usb_host_instance_t) (p : Nat) (q : usb_host_pipe_t)
    (hp : host.pipeList[p]? = some q) (hopen : q.open_ ≠ 0) :
    USB_HostClosePipe host (some p) =
      (usb_status_t.kStatus_USB_Success,
        { host with
          pipeList := host.pipeList.set p (closePipe q),
          abortRequests := host.abortRequests ++ boundTransfers host p }) := by
  simp [USB_HostClosePipe, USB_HostCancelTransfer, hp, hopen]

/-- C9: `USB_HostClosePipe` returns `kStatus_USB_InvalidHandle` and leaves
the host unchanged when the pipe handle is null, when it is unknown (no
pipe of the pool has this handle), and when the pipe is already closed. In
particular, after a close that succeeds, which returns the slot to the pool
(one more idle pipe), a second close of the same handle returns
`kStatus_USB_InvalidHandle` and changes nothing. -/
theorem USB_HostClosePipe_invalid_handle (host : usb_host_instance_t) (p : Nat) :
    USB_HostClosePipe host none = (usb_status_t.kStatus_USB_InvalidHandle, host) ∧
    (host.pipeList[p]? = none →
      USB_HostClosePipe host (some p) = (usb_status_t.kStatus_USB_InvalidHandle, host)) ∧
    (∀ q, host.pipeList[p]? = some q → q.open_ = 0 →
      USB_HostClosePipe host (some p) = (usb_status_t.kStatus_USB_InvalidHandle, host)) ∧
    (∀ q, host.pipeList[p]? = some q → q.open_ ≠ 0 →
      (USB_HostClosePipe host (some p)).1 = usb_status_t.kStatus_USB_Success ∧
      idlePipeCount (USB_HostClosePipe host (some p)).2 = idlePipeCount host + 1 ∧
      USB_HostClosePipe (USB_HostClosePipe host (some p)).2 (some p) =
        (usb_status_t.kStatus_USB_InvalidHandle, (USB_HostClosePipe host (some p)).2)) := by
  refine ⟨rfl, ?_, ?_, ?_⟩
  · intro hp
    simp [USB_HostClosePipe, hp]
  · intro q hp hclosed
    simp [USB_HostClosePipe, hp, hclosed]
  · intro q hp hopen
    have hlt : p < host.pipeList.length := (List.getElem?_eq_some_iff.mp hp).1
    rw [USB_HostClosePipe_open host p q hp hopen]
    refine ⟨rfl, ?_, ?_⟩
    · exact filter_length_set (fun q => decide (q.open_ = 0)) (closePipe q)
        (by simp [closePipe]) host.pipeList p q hp (by simpa using hopen)
    · simp [USB_HostClosePipe, hlt, closePipe]

/-- C9, on a host whose pipe 0 is open: the handle 5 is unknown, and the
second close of pipe 0 is refused and changes nothing. -/
theorem USB_HostClosePipe_invalid_handle_witness :
    USB_HostClosePipe hostOnePipe (some 5) =
      (usb_status_t.kStatus_USB_InvalidHandle, hostOnePipe) ∧
    USB_HostClosePipe (USB_HostClosePipe hostOnePipe (some 0)).2 (some 0) =
      (usb_status_t.kStatus_USB_InvalidHandle, (USB_HostClosePipe hostOnePipe (some 0)).2) :=
  ⟨(USB_HostClosePipe_invalid_handle hostOnePipe 5).2.1 (by decide),
    ((USB_HostClosePipe_invalid_handle hostOnePipe 0).2.2.2 (pipeOfInit bulkPipeInit)
      (by decide) (by decide)).2.2⟩

end UsbHost

namespace UsbHost

theorem mem_boundTransfers (host : usb_host_instance_t) (p t : Nat) :
    t ∈ boundTransfers host p ↔ ∃ x, host.transferList[t]? = some x ∧ isBound p x = true := by
  unfold boundTransfers
  rw [List.mem_filter, List.mem_range]
  constructor
  · rintro ⟨hlt, hb⟩
    have hx : host.transferList[t]? = some host.transferList[t] := List.getElem?_eq_getElem hlt
    rw [hx] at hb
    exact ⟨_, hx, hb⟩
  · rintro ⟨x, hx, hb⟩
    refine ⟨(List.getElem?_eq_some_iff.mp hx).1, ?_⟩
    rw [hx]
    exact hb

theorem boundTransfers_nodup (host : usb_host_instance_t) (p : Nat) :
    (boundTransfers host p).Nodup :=
  List.Nodup.filter _ (List.nodup_range _)

end UsbHost

/-! # Part III: the record of the device-name path, the event codes, the
exit status -/

namespace Netmon

/-- The characters that `strncpy` writes, in closed form. -/
theorem strncpy_chars_eq (src : List Char) (n : Nat) :
    strncpy_chars src n =
      src.take (min (strlen src) n) ++ List.replicate (n - min (strlen src) n) NUL := by
  induction n generalizing src with
  | zero => simp [strncpy_chars]
  | succ n ih =>
    cases src with
    | nil =>
      have h := ih []
      simp [strlen] at h
      simp [strncpy_chars, strlen, h, List.replicate_succ]
    | cons c cs =>
      by_cases hc : c = NUL
      · have h := ih []
        simp [strlen] at h
        simp [strncpy_chars, strlen, hc, h, List.replicate_succ]
      · have hmin : min (strlen cs + 1) (n + 1) = min (strlen cs) n + 1 := by omega
        have hsub : n + 1 - (min (strlen cs) n + 1) = n - min (strlen cs) n := by omega
        simp [strncpy_chars, strlen, hc, ih cs, hmin, hsub]

/-- The length of a prefix of a string that is followed by terminators only. -/
theorem strlen_take_append (k : Nat) :
    ∀ (m : Nat) (src : List Char), m ≤ strlen src →
      strlen (src.take m ++ List.replicate k NUL) = m := by
  intro m
  induction m with
  | zero =>
    intro src _
    cases k with
    | zero => simp [strlen]
    | succ j => simp [strlen, List.replicate_succ]
  | succ m ih =>
    intro src hm
    cases src with
    | nil => simp [strlen] at hm
    | cons c cs =>
      by_cases hc : c = NUL
      · simp [strlen, hc] at hm
      · have hcs : m ≤ strlen cs := by
          simp [strlen, hc] at hm
          exact hm
        simp [strlen, hc, ih cs hcs]

/-- The record handed to `netlib_netmon_devstats`, in closed form. -/
theorem devstats_record_eq (cfg : Config) (intf : String)
    (hlen : cfg.IFNAMSIZ < cfg.DEVNAME_LEN) :
    devstats_record cfg intf =
      some ⟨intf.toList.take (min (strlen intf.toList) cfg.IFNAMSIZ) ++
          List.replicate (cfg.DEVNAME_LEN - min (strlen intf.toList) cfg.IFNAMSIZ) NUL,
        0, 0, 0, 0⟩ := by
  have h1 : cfg.IFNAMSIZ ≤ (List.replicate cfg.DEVNAME_LEN NUL).length := by simp; omega
  have h2 : cfg.IFNAMSIZ <
      (strncpy_chars intf.toList cfg.IFNAMSIZ ++
        (List.replicate cfg.DEVNAME_LEN NUL).drop cfg.IFNAMSIZ).length := by
    simp [strncpy_chars_length]; omega
  simp only [devstats_record, strncpy, h1, if_true, store, h2]
  have hset : (strncpy_chars intf.toList cfg.IFNAMSIZ ++
        (List.replicate cfg.DEVNAME_LEN NUL).drop cfg.IFNAMSIZ).set cfg.IFNAMSIZ NUL =
      strncpy_chars intf.toList cfg.IFNAMSIZ ++
        List.replicate (cfg.DEVNAME_LEN - cfg.IFNAMSIZ) NUL := by
    rw [List.set_append_right _ _ (by rw [strncpy_chars_length]), strncpy_chars_length,
      List.drop_replicate, Nat.sub_self]
    obtain ⟨j, hj⟩ : ∃ j, cfg.DEVNAME_LEN - cfg.IFNAMSIZ = j + 1 :=
      ⟨cfg.DEVNAME_LEN - cfg.IFNAMSIZ - 1, by omega⟩
    rw [hj]
    rfl
  rw [hset, strncpy_chars_eq, List.append_assoc, ← List.replicate_add]
  have hsum : cfg.IFNAMSIZ - min (strlen intf.toList) cfg.IFNAMSIZ +
      (cfg.DEVNAME_LEN - cfg.IFNAMSIZ) =
      cfg.DEVNAME_LEN - min (strlen intf.toList) cfg.IFNAMSIZ := by omega
  rw [hsum]

/-- Without room for `IFNAMSIZ + 1` characters the record is not built. -/
theorem devstats_record_eq_none (cfg : Config) (intf : String)
    (hlen : ¬ cfg.IFNAMSIZ < cfg.DEVNAME_LEN) : devstats_record cfg intf = none := by
  by_cases h1 : cfg.IFNAMSIZ ≤ (List.replicate cfg.DEVNAME_LEN NUL).length
  · have h2 : ¬ cfg.IFNAMSIZ <
        (strncpy_chars intf.toList cfg.IFNAMSIZ ++
          (List.replicate cfg.DEVNAME_LEN NUL).drop cfg.IFNAMSIZ).length := by
      simp [strncpy_chars_length]; omega
    simp only [devstats_record, strncpy, h1, if_true, store, h2, if_false]
  · simp only [devstats_record, strncpy, h1, if_false]

end Netmon

namespace Netmon

/-- The device-name block in a build with `CONFIG_NET_STATS`, when the record
is built: the first effect is the call on that record. -/
theorem cmd_netmon_devname_head (cfg : Config) (env : Env) (intf : String)
    (stats : netmon_netdev_stats) (hstats : cfg.CONFIG_NET_STATS = true)
    (hrec : devstats_record cfg intf = some stats) :
    ∃ o, cmd_netmon_devname cfg env intf = some o ∧
      o.trace.head? = some (Effect.netlib_netmon_devstats stats) := by
  by_cases hr : (env.netlib_netmon_devstats stats).1 = 0
  · refine ⟨⟨OK, Effect.netlib_netmon_devstats stats ::
        _print_devstats (env.netlib_netmon_devstats stats).2⟩, ?_, rfl⟩
    simp [cmd_netmon_devname, hstats, hrec, hr]
  · refine ⟨⟨ERROR, [Effect.netlib_netmon_devstats stats,
        Effect.NETCMD_LOGE NTAG "No device interface %s\n" [Arg.str intf]]⟩, ?_, rfl⟩
    simp [cmd_netmon_devname, hstats, hrec, hr]

/-- C11: on the device-name path of `cmd_netmon` (a build with
`CONFIG_NET_STATS`, `argc == 2`, `argv[1]` a C string other than `sock` and
`wifi`), the record is filled without overrun, so that the command returns,
exactly when the name array holds at least `IFNAMSIZ + 1` characters; and
then the record handed to `netlib_netmon_devstats` has its four counters at
zero and a name array that holds the first `min(strlen(argv[1]), IFNAMSIZ)`
characters of `argv[1]` followed by terminators only, the first of them
inside the array. -/
theorem cmd_netmon_devstats_record (cfg : Config) (env : Env) (argv : List String)
    (name : String) (hstats : cfg.CONFIG_NET_STATS = true) (harg : argv.get? 1 = some name)
    (hnul : NUL ∉ name.toList) (hsock : name ≠ "sock") (hwifi : name ≠ "wifi") :
    ((cmd_netmon cfg env 2 argv).isSome ↔ cfg.IFNAMSIZ + 1 ≤ cfg.DEVNAME_LEN) ∧
    ∀ o, cmd_netmon cfg env 2 argv = some o →
      ∃ stats, o.trace.head? = some (Effect.netlib_netmon_devstats stats) ∧
        stats.devinpkts = 0 ∧ stats.devinoctets = 0 ∧
        stats.devoutpkts = 0 ∧ stats.devoutoctets = 0 ∧
        stats.devname.length = cfg.DEVNAME_LEN ∧
        strlen stats.devname = min (strlen name.toList) cfg.IFNAMSIZ ∧
        strlen stats.devname < stats.devname.length ∧
        stats.devname.take (strlen stats.devname) =
          name.toList.take (min (strlen name.toList) cfg.IFNAMSIZ) ∧
        stats.devname.drop (strlen stats.devname) =
          List.replicate (cfg.DEVNAME_LEN - strlen stats.devname) NUL := by
  have hd : cmd_netmon cfg env 2 argv = cmd_netmon_devname cfg env name := by
    rw [cmd_netmon_dispatch cfg env argv name harg hnul, if_neg hsock, if_neg hwifi]
  rw [hd]
  by_cases hlen : cfg.IFNAMSIZ < cfg.DEVNAME_LEN
  · have hrec := devstats_record_eq cfg name hlen
    obtain ⟨o1, ho1, hhead⟩ := cmd_netmon_devname_head cfg env name _ hstats hrec
    have hm : min (strlen name.toList) cfg.IFNAMSIZ ≤ strlen name.toList := Nat.min_le_left _ _
    have hml : min (strlen name.toList) cfg.IFNAMSIZ ≤ name.toList.length := by
      have hle : ∀ l : List Char, strlen l ≤ l.length := by
        intro l
        induction l with
        | nil => simp [strlen]
        | cons c cs ih => by_cases hc : c = NUL <;> simp [strlen, hc]; omega
      exact Nat.le_trans hm (hle _)
    have hstrlen := strlen_take_append
      (cfg.DEVNAME_LEN - min (strlen name.toList) cfg.IFNAMSIZ) _ name.toList hm
    have htl : (name.toList.take (min (strlen name.toList) cfg.IFNAMSIZ)).length =
        min (strlen name.toList) cfg.IFNAMSIZ := by
      rw [List.length_take]; omega
    refine ⟨⟨fun _ => by omega, fun _ => by simp [ho1]⟩, ?_⟩
    intro o ho
    rw [ho1] at ho
    cases ho
    refine ⟨_, hhead, rfl, rfl, rfl, rfl, ?_, hstrlen, ?_, ?_, ?_⟩
    · simp only [List.length_append, List.length_replicate, htl]
      omega
    · rw [hstrlen]
      simp only [List.length_append, List.length_replicate, htl]
      omega
    · rw [hstrlen, List.take_append_of_le_length (by rw [htl]), List.take_of_length_le (by rw [htl])]
    · rw [hstrlen, List.drop_append_of_le_length (by rw [htl]),
        List.drop_of_length_le (by rw [htl]), List.nil_append]
  · have hnone : cmd_netmon_devname cfg env name = none := by
      simp [cmd_netmon_devname, hstats, devstats_record_eq_none cfg name hlen]
    rw [hnone]
    refine ⟨⟨fun h => by simp at h, fun h => by omega⟩, ?_⟩
    intro o ho
    cases ho

/-- C11, at `netmon ethernet0` with `IFNAMSIZ` 6 and a name array of 7
characters: the name handed over is `ethern`. -/
theorem cmd_netmon_devstats_record_witness :
    (cmd_netmon ⟨true, false, 6, 7⟩ ⟨fun i => (0, i), fun s => (0, s)⟩ 2
        ["netmon", "ethernet0"]).isSome ↔ 6 + 1 ≤ 7 :=
  (cmd_netmon_devstats_record ⟨true, false, 6, 7⟩ ⟨fun i => (0, i), fun s => (0, s)⟩
    ["netmon", "ethernet0"] "ethernet0" rfl rfl (by decide) (by decide) (by decide)).1

end Netmon

namespace UsbHost

/-- The event codes depend on the build only through the low-power mode. -/
theorem usb_host_event_code_mode (m : Option Nat) (e : usb_host_event_t) :
    usb_host_event_code m e =
      usb_host_event_code (if lowPowerMode m then some 1 else none) e := by
  have hmode : lowPowerMode (if lowPowerMode m then some 1 else none) = lowPowerMode m := by
    cases h : lowPowerMode m <;> simp [lowPowerMode]
  simp only [usb_host_event_code, usb_host_event_enumerators, hmode]

/-- A code below `2 ^ 16` occupies the low two bytes of the packed event code
and the reason the high two bytes. -/
theorem packEventCode_low (reason code : Nat) (hcode : code < 2 ^ 16) :
    packEventCode reason code % 2 ^ 16 = code ∧
      packEventCode reason code / 2 ^ 16 = reason % 2 ^ 16 := by
  unfold packEventCode
  rw [← Nat.mul_add_lt_is_or hcode reason]
  constructor <;> omega

/-- The event codes without the low-power mode. -/
theorem usb_host_event_code_plain (e : usb_host_event_t) (c : Nat)
    (h : usb_host_event_code none e = some c) :
    (e = usb_host_event_t.USB_HOST_EVENT_ATTACHED ∧ c = 1) ∨
    (e = usb_host_event_t.USB_HOST_EVENT_DETACHED ∧ c = 2) ∨
    (e = usb_host_event_t.USB_HOST_EVENT_ENUM_FAIL ∧ c = 3) ∨
    (e = usb_host_event_t.USB_HUB_EVENT_ATTACHED ∧ c = 4) ∨
    (e = usb_host_event_t.USB_HUB_EVENT_DETACHED ∧ c = 5) := by
  cases e <;>
    simp [usb_host_event_code, usb_host_event_enumerators, lowPowerMode, enumValues] at h <;>
    simp [← h]

/-- The event codes with the low-power mode: the position in the
declaration. -/
theorem usb_host_event_code_lowPower (e : usb_host_event_t) (c : Nat)
    (h : usb_host_event_code (some 1) e = some c) :
    c = e.toCtorIdx + 1 := by
  cases e <;>
    simp [usb_host_event_code, usb_host_event_enumerators, lowPowerMode, enumValues] at h <;>
    simp [← h, usb_host_event_t.toCtorIdx]

end UsbHost

namespace UsbHost

theorem toCtorIdx_injective (e1 e2 : usb_host_event_t) (h : e1.toCtorIdx = e2.toCtorIdx) :
    e1 = e2 := by
  have h1 := usb_host_event_t.ofNat_toCtorIdx e1
  have h2 := usb_host_event_t.ofNat_toCtorIdx e2
  rw [← h1, ← h2, h]

/-- C12: in both builds of `usb_host_event_t` (low-power mode off and on)
the codes start at `USB_HOST_EVENT_ATTACHED = 1`, `USB_HOST_EVENT_DETACHED =
2`, `USB_HOST_EVENT_ENUM_FAIL = 3`; the hub events have the next two values
after the last code before them, 4 and 5 without the low-power mode, 16 and
17 with it; two enumerators with the same code are the same enumerator, so
the hub events differ from the device events; every code is non-zero and
below `2 ^ 16`, so that in the packed 32-bit event code the low two bytes
are the event code whatever the failure reason in the high two bytes. -/
theorem usb_host_event_code_values (m : Option Nat) :
    usb_host_event_code m usb_host_event_t.USB_HOST_EVENT_ATTACHED = some 1 ∧
    usb_host_event_code m usb_host_event_t.USB_HOST_EVENT_DETACHED = some 2 ∧
    usb_host_event_code m usb_host_event_t.USB_HOST_EVENT_ENUM_FAIL = some 3 ∧
    (lowPowerMode m = false →
      usb_host_event_code m usb_host_event_t.USB_HUB_EVENT_ATTACHED = some 4 ∧
      usb_host_event_code m usb_host_event_t.USB_HUB_EVENT_DETACHED = some 5) ∧
    (lowPowerMode m = true →
      usb_host_event_code m usb_host_event_t.kUSB_HostEventL1Resumed = some 15 ∧
      usb_host_event_code m usb_host_event_t.USB_HUB_EVENT_ATTACHED = some 16 ∧
      usb_host_event_code m usb_host_event_t.USB_HUB_EVENT_DETACHED = some 17) ∧
    (∀ e1 e2 c, usb_host_event_code m e1 = some c → usb_host_event_code m e2 = some c →
      e1 = e2) ∧
    (∀ e c reason, usb_host_event_code m e = some c →
      c ≠ 0 ∧ c < 2 ^ 16 ∧ packEventCode reason c % 2 ^ 16 = c ∧
        packEventCode reason c / 2 ^ 16 = reason % 2 ^ 16) := by
  simp only [usb_host_event_code_mode m]
  cases hmode : lowPowerMode m
  · simp only [Bool.false_eq_true, if_false]
    refine ⟨by decide, by decide, by decide, fun _ => by decide, fun h => by simp at h, ?_, ?_⟩
    · intro e1 e2 c h1 h2
      have k1 := usb_host_event_code_plain e1 c h1
      have k2 := usb_host_event_code_plain e2 c h2
      rcases k1 with ⟨he1, hc1⟩ | ⟨he1, hc1⟩ | ⟨he1, hc1⟩ | ⟨he1, hc1⟩ | ⟨he1, hc1⟩ <;>
        rcases k2 with ⟨he2, hc2⟩ | ⟨he2, hc2⟩ | ⟨he2, hc2⟩ | ⟨he2, hc2⟩ | ⟨he2, hc2⟩ <;>
        first
          | (exfalso; omega)
          | rw [he1, he2]
    · intro e c reason h
      have k := usb_host_event_code_plain e c h
      have hc : c ≠ 0 ∧ c < 2 ^ 16 := by omega
      exact ⟨hc.1, hc.2, packEventCode_low reason c hc.2⟩
  · simp only [if_true]
    refine ⟨by decide, by decide, by decide, fun h => by simp at h, fun _ => by decide, ?_, ?_⟩
    · intro e1 e2 c h1 h2
      have k1 := usb_host_event_code_lowPower e1 c h1
      have k2 := usb_host_event_code_lowPower e2 c h2
      exact toCtorIdx_injective e1 e2 (by omega)
    · intro e c reason h
      have k := usb_host_event_code_lowPower e c h
      have hidx : e.toCtorIdx < 17 := by cases e <;> decide
      have hc : c ≠ 0 ∧ c < 2 ^ 16 := by omega
      exact ⟨hc.1, hc.2, packEventCode_low reason c hc.2⟩

/-- C12, in the build where `USB_HOST_CONFIG_LOW_POWER_MODE` is 1: the hub
events have the codes 16 and 17. -/
theorem usb_host_event_code_values_witness :
    usb_host_event_code (some 1) usb_host_event_t.kUSB_HostEventL1Resumed = some 15 ∧
    usb_host_event_code (some 1) usb_host_event_t.USB_HUB_EVENT_ATTACHED = some 16 ∧
    usb_host_event_code (some 1) usb_host_event_t.USB_HUB_EVENT_DETACHED = some 17 :=
  (usb_host_event_code_values (some 1)).2.2.2.2.1 (by decide)

end UsbHost

namespace Netmon

/-- The socket block returns `OK` whatever the query returns. -/
theorem cmd_netmon_sock_ret (env : Env) : (cmd_netmon_sock env).ret = OK := by
  unfold cmd_netmon_sock
  by_cases hr : (env.netlib_netmon_sock ⟨none⟩).1 = 0 <;> simp [hr]

/-- C13: for every `argc >= 1`, every `argv` of `argc` C strings and every
behaviour of the external calls, `cmd_netmon` returns, and its status is
`OK` (0) or `ERROR` (negative); in a build with `CONFIG_NET_STATS` (and a
name array longer than `IFNAMSIZ`) the status is `ERROR` if and only if
`argc == 2` and `argv[1]` either equals `"wifi"` or is a device name
(neither `"sock"` nor `"wifi"`) on whose record `netlib_netmon_devstats`
returns non-zero. -/
theorem cmd_netmon_exit_status (cfg : Config) (env : Env) (argc : Int) (argv : List String)
    (hargc : 1 ≤ argc) (hargv : (argv.length : Int) = argc)
    (hnul : ∀ a ∈ argv, NUL ∉ a.toList)
    (hlen : cfg.CONFIG_NET_STATS = true → cfg.IFNAMSIZ < cfg.DEVNAME_LEN) :
    ∃ o, cmd_netmon cfg env argc argv = some o ∧ (o.ret = OK ∨ o.ret = ERROR) ∧
      OK = 0 ∧ ERROR < 0 ∧
      (cfg.CONFIG_NET_STATS = true →
        (o.ret = ERROR ↔
          argc = 2 ∧ ∃ arg1, argv.get? 1 = some arg1 ∧
            (arg1 = "wifi" ∨
              (arg1 ≠ "sock" ∧ arg1 ≠ "wifi" ∧
                ∃ stats, devstats_record cfg arg1 = some stats ∧
                  (env.netlib_netmon_devstats stats).1 ≠ 0)))) := by
  have hne : OK ≠ ERROR := by decide
  by_cases husage : argc = 1 ∨ argc > 2
  · refine ⟨⟨OK, _print_help⟩, by simp [cmd_netmon, husage], Or.inl rfl, rfl, by decide, ?_⟩
    intro _
    constructor
    · intro h
      exact absurd h hne
    · rintro ⟨h2, _⟩
      omega
  · have h2 : argc = 2 := by omega
    subst h2
    have hl : argv.length = 2 := by exact_mod_cast hargv
    obtain ⟨arg0, arg1, rfl⟩ : ∃ a b, argv = [a, b] := by
      match argv, hl with
      | [a, b], _ => exact ⟨a, b, rfl⟩
    have hnul1 : NUL ∉ arg1.toList := hnul arg1 (by simp)
    have hd := cmd_netmon_dispatch cfg env [arg0, arg1] arg1 rfl hnul1
    by_cases hs : arg1 = "sock"
    · refine ⟨cmd_netmon_sock env, by rw [hd, if_pos hs], Or.inl (cmd_netmon_sock_ret env),
        rfl, by decide, ?_⟩
      intro _
      rw [cmd_netmon_sock_ret env]
      constructor
      · intro h
        exact absurd h hne
      · rintro ⟨_, a, ha, hcase⟩
        simp at ha
        subst ha
        rcases hcase with hw | ⟨hns, _⟩
        · rw [hs] at hw
          exact absurd hw (by decide)
        · exact absurd hs hns
    · by_cases hw : arg1 = "wifi"
      · refine ⟨_print_wifi_info, by rw [hd, if_neg hs, if_pos hw], Or.inr rfl, rfl,
          by decide, ?_⟩
        intro _
        constructor
        · intro _
          exact ⟨rfl, arg1, rfl, Or.inl hw⟩
        · intro _
          rfl
      · rw [if_neg hs, if_neg hw] at hd
        cases hcfg : cfg.CONFIG_NET_STATS
        · refine ⟨⟨OK, [Effect.NETCMD_LOGE NTAG "No such an option\n" []]⟩, ?_, Or.inl rfl, rfl,
            by decide, ?_⟩
          · rw [hd]
            simp [cmd_netmon_devname, hcfg]
          · intro h
            simp at h
        · obtain ⟨stats, hrec⟩ := devstats_record_isSome cfg arg1 (hlen hcfg)
          by_cases hr : (env.netlib_netmon_devstats stats).1 = 0
          · refine ⟨⟨OK, Effect.netlib_netmon_devstats stats ::
                _print_devstats (env.netlib_netmon_devstats stats).2⟩, ?_, Or.inl rfl, rfl,
              by decide, ?_⟩
            · rw [hd]
              simp [cmd_netmon_devname, hcfg, hrec, hr]
            · intro _
              constructor
              · intro h
                exact absurd h hne
              · rintro ⟨_, a, ha, hcase⟩
                simp at ha
                subst ha
                rcases hcase with hw2 | ⟨_, _, st, hst, hbad⟩
                · exact absurd hw2 hw
                · rw [hrec] at hst
                  cases hst
                  exact absurd hr hbad
          · refine ⟨⟨ERROR, [Effect.netlib_netmon_devstats stats,
                Effect.NETCMD_LOGE NTAG "No device interface %s\n" [Arg.str arg1]]⟩, ?_,
              Or.inr rfl, rfl, by decide, ?_⟩
            · rw [hd]
              simp [cmd_netmon_devname, hcfg, hrec, hr]
            · intro _
              constructor
              · intro _
                exact ⟨rfl, arg1, rfl, Or.inr ⟨hs, hw, stats, hrec, hr⟩⟩
              · intro _
                rfl

/-- C13, at `netmon wifi`: the status is `ERROR`. -/
theorem cmd_netmon_exit_status_witness :
    ∃ o, cmd_netmon ⟨true, false, 6, 7⟩ ⟨fun i => (0, i), fun s => (0, s)⟩ 2
        ["netmon", "wifi"] = some o ∧ (o.ret = OK ∨ o.ret = ERROR) :=
  match cmd_netmon_exit_status ⟨true, false, 6, 7⟩ ⟨fun i => (0, i), fun s => (0, s)⟩ 2
      ["netmon", "wifi"] (by decide) rfl (by decide) (fun _ => by decide) with
  | ⟨o, ho, hret, _⟩ => ⟨o, ho, hret⟩

end Netmon

namespace Netmon

/-- C14: `cmd_netmon` with `argc == 2` and `argv[1]` equal to `"sock"`, when
`netlib_netmon_sock` returns non-zero: the effects are the call and the
error log `"Failed to fetch socket info.\n"`, nothing else (no table, no
`free`), and the status is still `OK`, which is 0. -/
theorem cmd_netmon_sock_failure (cfg : Config) (env : Env) (argv : List String)
    (harg : argv.get? 1 = some "sock") (hfail : (env.netlib_netmon_sock ⟨none⟩).1 ≠ 0) :
    cmd_netmon cfg env 2 argv =
        some ⟨OK, [Effect.netlib_netmon_sock ⟨none⟩,
          Effect.NETCMD_LOGE NTAG "Failed to fetch socket info.\n" []]⟩ ∧
      OK = 0 := by
  refine ⟨?_, rfl⟩
  rw [cmd_netmon_dispatch cfg env argv "sock" harg (by decide)]
  simp [cmd_netmon_sock, hfail]

/-- C14, at `netmon sock` with a query that returns 1. -/
theorem cmd_netmon_sock_failure_witness :
    cmd_netmon ⟨true, false, 6, 7⟩ ⟨fun i => (1, i), fun s => (0, s)⟩ 2 ["netmon", "sock"] =
        some ⟨OK, [Effect.netlib_netmon_sock ⟨none⟩,
          Effect.NETCMD_LOGE NTAG "Failed to fetch socket info.\n" []]⟩ ∧
      OK = 0 :=
  cmd_netmon_sock_failure ⟨true, false, 6, 7⟩ ⟨fun i => (1, i), fun s => (0, s)⟩
    ["netmon", "sock"] rfl one_ne_zero

/-- C15: in a build without `CONFIG_NET_STATS`, `cmd_netmon` with
`argc == 2` and `argv[1]` a C string other than `"sock"` and `"wifi"` logs
the error `"No such an option\n"`, does nothing else (no external call), and
returns `OK`, which is 0; the result is the same for every such name and
every behaviour of the external calls. -/
theorem cmd_netmon_no_such_option (cfg : Config) (env : Env) (argv : List String)
    (name : String) (hstats : cfg.CONFIG_NET_STATS = false) (harg : argv.get? 1 = some name)
    (hnul : NUL ∉ name.toList) (hsock : name ≠ "sock") (hwifi : name ≠ "wifi") :
    cmd_netmon cfg env 2 argv =
        some ⟨OK, [Effect.NETCMD_LOGE NTAG "No such an option\n" []]⟩ ∧
      OK = 0 := by
  refine ⟨?_, rfl⟩
  rw [cmd_netmon_dispatch cfg env argv name harg hnul]
  simp [hsock, hwifi, cmd_netmon_devname, hstats]

/-- C15, at `netmon eth0` in a build without `CONFIG_NET_STATS`, with a
device query that would succeed. -/
theorem cmd_netmon_no_such_option_witness :
    cmd_netmon ⟨false, false, 6, 7⟩ ⟨fun i => (0, i), fun s => (0, s)⟩ 2 ["netmon", "eth0"] =
        some ⟨OK, [Effect.NETCMD_LOGE NTAG "No such an option\n" []]⟩ ∧
      OK = 0 :=
  cmd_netmon_no_such_option ⟨false, false, 6, 7⟩ ⟨fun i => (0, i), fun s => (0, s)⟩
    ["netmon", "eth0"] "eth0" rfl rfl (by decide) (by decide) (by decide)

/-- C16: with `CONFIG_WIFI_MANAGER` defined or not, in every build and for
every behaviour of the external calls, `cmd_netmon` with `argc == 2` and
`argv[1]` equal to `"wifi"` has the same result: the one error log
`"Wi-Fi Manager is not enabled\n"` and nothing else (no call at all, so no
query of the WiFi manager), and the status `ERROR`, which is negative. -/
theorem cmd_netmon_wifi_any_build (cfg : Config) (env : Env) (argv : List String)
    (harg : argv.get? 1 = some "wifi") :
    cmd_netmon { cfg with CONFIG_WIFI_MANAGER := true } env 2 argv =
        some ⟨ERROR, [Effect.NETCMD_LOGE NTAG "Wi-Fi Manager is not enabled\n" []]⟩ ∧
    cmd_netmon { cfg with CONFIG_WIFI_MANAGER := false } env 2 argv =
        some ⟨ERROR, [Effect.NETCMD_LOGE NTAG "Wi-Fi Manager is not enabled\n" []]⟩ ∧
    ERROR < 0 := by
  refine ⟨?_, ?_, by decide⟩
  · rw [cmd_netmon_dispatch _ env argv "wifi" harg (by decide)]
    simp [_print_wifi_info]
  · rw [cmd_netmon_dispatch _ env argv "wifi" harg (by decide)]
    simp [_print_wifi_info]

/-- C16, at `netmon wifi` in a build with `CONFIG_WIFI_MANAGER`. -/
theorem cmd_netmon_wifi_any_build_witness :
    cmd_netmon ⟨true, true, 6, 7⟩ ⟨fun i => (0, i), fun s => (0, s)⟩ 2 ["netmon", "wifi"] =
      some ⟨ERROR, [Effect.NETCMD_LOGE NTAG "Wi-Fi Manager is not enabled\n" []]⟩ :=
  (cmd_netmon_wifi_any_build ⟨true, false, 6, 7⟩ ⟨fun i => (0, i), fun s => (0, s)⟩
    ["netmon", "wifi"] rfl).1

end Netmon

/-! # Part IV: cancellation of the transfers of a pipe -/

namespace UsbHost

theorem isBound_isActive (p : Nat) (x : usb_host_transfer_t) :
    isBound p x = true ↔ isActive x = true ∧ x.transferPipe = some p := by
  simp [isBound, isActive]

theorem isActive_idleTransfer : isActive idleTransfer = false := by decide

/-- Returning the transfer `t` to the pool removes it from the transfers
bound to a pipe and touches no other transfer. -/
theorem boundTransfers_set_idle (s s1 : usb_host_instance_t) (p t : Nat)
    (h : s1.transferList = s.transferList.set t idleTransfer) :
    boundTransfers s1 p = (boundTransfers s p).filter (fun i => decide (i ≠ t)) := by
  unfold boundTransfers
  rw [List.filter_filter, h]
  simp only [List.length_set]
  apply List.filter_congr
  intro i _
  by_cases hit : i = t
  · subst hit
    by_cases hlt : i < s.transferList.length
    · simp [List.getElem?_set, hlt, isBound, idleTransfer]
    · simp [List.getElem?_set, hlt]
  · have hti : t ≠ i := fun h => hit h.symm
    simp [List.getElem?_set, hti, hit]

/-- Taking a queued transfer in flight leaves it bound to its pipe. -/
theorem boundTransfers_set_issued (s s1 : usb_host_instance_t) (p t : Nat)
    (z issued : usb_host_transfer_t) (hz : s.transferList[t]? = some z)
    (hact : isActive issued = isActive z) (hpipe : issued.transferPipe = z.transferPipe)
    (h : s1.transferList = s.transferList.set t issued) :
    boundTransfers s1 p = boundTransfers s p := by
  unfold boundTransfers
  rw [h]
  simp only [List.length_set]
  apply List.filter_congr
  intro i _
  by_cases hit : i = t
  · subst hit
    have hlt : i < s.transferList.length := (List.getElem?_eq_some_iff.mp hz).1
    have hb : isBound p issued = isBound p z := by
      have h1 := isBound_isActive p issued
      have h2 := isBound_isActive p z
      rw [hact, hpipe] at h1
      cases hbi : isBound p issued <;> cases hbz : isBound p z <;> simp_all
    simp [List.getElem?_set, hlt, hz, hb]
  · have hti : t ≠ i := fun h => hit h.symm
    simp [List.getElem?_set, hti]

end UsbHost

namespace UsbHost

/-- The facts about one event of the backend, for an event that changes
nothing. -/
theorem backendStep_spec_of_eq (p : Nat) (s s1 : usb_host_instance_t) (e : backend_event)
    (heq : s1 = s)
    (hdone : ∀ t st, e = backend_event.report t st →
      ∀ x, s.transferList[t]? = some x → isActive x = false) :
    ∃ a0 : List transfer_callback,
      s1.callbackLog = s.callbackLog ++ a0 ∧
      (∀ c ∈ a0, ∃ y st, e = backend_event.report c.transfer st ∧
        s.transferList[c.transfer]? = some y ∧ isActive y = true ∧
        c.pipe = y.transferPipe ∧
        (c.status = usb_status_t.kStatus_USB_TransferCancel ∨
          (c.status = st ∧ c.transfer ∉ s.abortRequests))) ∧
      List.Perm
        ((a0.filter (fun c => decide (c.pipe = some p))).map (fun c => c.transfer) ++
          boundTransfers s1 p) (boundTransfers s p) ∧
      (∀ (i : Nat) (x : usb_host_transfer_t), s1.transferList[i]? = some x → isActive x = true →
        ∃ y, s.transferList[i]? = some y ∧ isActive y = true ∧
          y.transferPipe = x.transferPipe) ∧
      (∀ u ∈ s1.abortRequests, u ∈ s.abortRequests) ∧
      (∀ u ∈ s.abortRequests, u ∈ s1.abortRequests ∨
        ∀ x, s1.transferList[u]? = some x → isActive x = false) ∧
      (∀ t st, e = backend_event.report t st →
        ∀ x, s1.transferList[t]? = some x → isActive x = false) := by
  subst heq
  refine ⟨[], by simp, by simp, by simp, ?_, fun u hu => hu, fun u hu => Or.inl hu, hdone⟩
  intro i x hx hact
  exact ⟨x, hx, hact, rfl⟩

/-- The facts about one event of the backend: the callbacks it adds, each
for a reported transfer that was active, with the cancel status when the
abort of the transfer was accepted; the transfers bound to a pipe are those
bound before without the completed one; active transfers are not rebound;
accepted aborts stay until their transfer has completed. -/
theorem backendStep_spec (p : Nat) (s : usb_host_instance_t) (e : backend_event) :
    ∃ a0 : List transfer_callback,
      (backendStep s e).callbackLog = s.callbackLog ++ a0 ∧
      (∀ c ∈ a0, ∃ y st, e = backend_event.report c.transfer st ∧
        s.transferList[c.transfer]? = some y ∧ isActive y = true ∧
        c.pipe = y.transferPipe ∧
        (c.status = usb_status_t.kStatus_USB_TransferCancel ∨
          (c.status = st ∧ c.transfer ∉ s.abortRequests))) ∧
      List.Perm
        ((a0.filter (fun c => decide (c.pipe = some p))).map (fun c => c.transfer) ++
          boundTransfers (backendStep s e) p) (boundTransfers s p) ∧
      (∀ (i : Nat) (x : usb_host_transfer_t), (backendStep s e).transferList[i]? = some x → isActive x = true →
        ∃ y, s.transferList[i]? = some y ∧ isActive y = true ∧
          y.transferPipe = x.transferPipe) ∧
      (∀ u ∈ (backendStep s e).abortRequests, u ∈ s.abortRequests) ∧
      (∀ u ∈ s.abortRequests, u ∈ (backendStep s e).abortRequests ∨
        ∀ x, (backendStep s e).transferList[u]? = some x → isActive x = false) ∧
      (∀ t st, e = backend_event.report t st →
        ∀ x, (backendStep s e).transferList[t]? = some x → isActive x = false) := by
  cases e with
  | issue t =>
    cases hz : s.transferList[t]? with
    | none =>
      exact backendStep_spec_of_eq p s _ _ (by simp [backendStep, backendIssue, hz])
        (by intro t1 st1 h; cases h)
    | some z =>
      by_cases hq : z.state = transfer_state.Queued
      · have hlt : t < s.transferList.length := (List.getElem?_eq_some_iff.mp hz).1
        have hstep : backendStep s (backend_event.issue t) =
            { s with transferList :=
                s.transferList.set t { z with state := transfer_state.InFlight } } := by
          simp [backendStep, backendIssue, hz, hq]
        rw [hstep]
        have hactz : isActive z = true := by simp [isActive, hq]
        have hbound := boundTransfers_set_issued s
          { s with transferList :=
              s.transferList.set t { z with state := transfer_state.InFlight } } p t z
          { z with state := transfer_state.InFlight } hz
          (by simp [isActive, hq]) rfl rfl
        refine ⟨[], by simp, by simp, by simp [hbound], ?_, fun u hu => hu,
          fun u hu => Or.inl hu, ?_⟩
        · intro i x hx hact
          by_cases hit : i = t
          · subst hit
            simp [List.getElem?_set, hlt] at hx
            subst hx
            exact ⟨z, hz, hactz, rfl⟩
          · have hti : t ≠ i := fun h => hit h.symm
            simp [List.getElem?_set, hti] at hx
            exact ⟨x, hx, hact, rfl⟩
        · intro t1 st1 h
          cases h
      · exact backendStep_spec_of_eq p s _ _ (by simp [backendStep, backendIssue, hz, hq])
          (by intro t1 st1 h; cases h)
  | report t st =>
    cases hz : s.transferList[t]? with
    | none =>
      exact backendStep_spec_of_eq p s _ _ (by simp [backendStep, completeTransfer, hz])
        (by
          intro t1 st1 h x hx
          cases h
          rw [hz] at hx
          cases hx)
    | some z =>
      by_cases hact : z.state = transfer_state.Queued ∨ z.state = transfer_state.InFlight
      · have hlt : t < s.transferList.length := (List.getElem?_eq_some_iff.mp hz).1
        have hactz : isActive z = true := by
          rcases hact with h | h <;> simp [isActive, h]
        have hstep : backendStep s (backend_event.report t st) =
            { s with
              transferList := s.transferList.set t idleTransfer,
              abortRequests := s.abortRequests.filter (fun i => decide (i ≠ t)),
              callbackLog := s.callbackLog ++
                [⟨z.callbackParam, t, z.transferPipe, z.transferSofar,
                  if t ∈ s.abortRequests then usb_status_t.kStatus_USB_TransferCancel
                  else st⟩] } := by
          simp [backendStep, completeTransfer, hz, hact]
        rw [hstep]
        have hbound := boundTransfers_set_idle s
          { s with
            transferList := s.transferList.set t idleTransfer,
            abortRequests := s.abortRequests.filter (fun i => decide (i ≠ t)),
            callbackLog := s.callbackLog ++
              [⟨z.callbackParam, t, z.transferPipe, z.transferSofar,
                if t ∈ s.abortRequests then usb_status_t.kStatus_USB_TransferCancel
                else st⟩] } p t rfl
        refine ⟨[⟨z.callbackParam, t, z.transferPipe, z.transferSofar,
            if t ∈ s.abortRequests then usb_status_t.kStatus_USB_TransferCancel else st⟩],
          rfl, ?_, ?_, ?_, ?_, ?_, ?_⟩
        · intro c hc
          simp at hc
          subst hc
          refine ⟨z, st, rfl, hz, hactz, rfl, ?_⟩
          by_cases hmem : t ∈ s.abortRequests
          · left
            simp [hmem]
          · right
            simp [hmem]
        · rw [hbound]
          by_cases hpipe : z.transferPipe = some p
          · have hmem : t ∈ boundTransfers s p :=
              (mem_boundTransfers s p t).mpr
                ⟨z, hz, (isBound_isActive p z).mpr ⟨hactz, hpipe⟩⟩
            have herase : (boundTransfers s p).erase t =
                (boundTransfers s p).filter (fun i => decide (i ≠ t)) := by
              rw [(boundTransfers_nodup s p).erase_eq_filter]
              apply List.filter_congr
              intro i _
              by_cases hi : i = t <;> simp [hi]
            rw [← herase]
            simp only [List.filter_cons, hpipe, decide_True, if_true, List.filter_nil,
              List.map_cons, List.map_nil, List.singleton_append]
            exact (List.perm_cons_erase hmem).symm
          · have hnot : t ∉ boundTransfers s p := by
              rw [mem_boundTransfers]
              rintro ⟨y, hy, hb⟩
              rw [hz] at hy
              cases hy
              exact hpipe ((isBound_isActive p z).mp hb).2
            have hself : (boundTransfers s p).filter (fun i => decide (i ≠ t)) =
                boundTransfers s p := by
              rw [List.filter_eq_self]
              intro i hi
              have hne : i ≠ t := fun h => hnot (h ▸ hi)
              simpa using hne
            rw [hself]
            simp [List.filter_cons, hpipe]
        · intro i x hx hax
          by_cases hit : i = t
          · subst hit
            simp [List.getElem?_set, hlt] at hx
            subst hx
            rw [isActive_idleTransfer] at hax
            cases hax
          · have hti : t ≠ i := fun h => hit h.symm
            simp [List.getElem?_set, hti] at hx
            exact ⟨x, hx, hax, rfl⟩
        · intro u hu
          exact (List.mem_filter.mp hu).1
        · intro u hu
          by_cases hut : u = t
          · right
            subst hut
            intro x hx
            simp [List.getElem?_set, hlt] at hx
            subst hx
            exact isActive_idleTransfer
          · left
            exact List.mem_filter.mpr ⟨hu, by simpa using hut⟩
        · intro t1 st1 h x hx
          cases h
          simp [List.getElem?_set, hlt] at hx
          subst hx
          exact isActive_idleTransfer
      · exact backendStep_spec_of_eq p s _ _
          (by simp [backendStep, completeTransfer, hz, hact])
          (by
            intro t1 st1 h x hx
            cases h
            rw [hz] at hx
            cases hx
            simpa [isActive] using hact)

end UsbHost

namespace UsbHost

/-- The facts of `backendStep_spec` for a sequence of events of the
backend. -/
theorem backendRun_spec (p : Nat) :
    ∀ (events : List backend_event) (s : usb_host_instance_t),
      ∃ added : List transfer_callback,
        (backendRun s events).callbackLog = s.callbackLog ++ added ∧
        (∀ c ∈ added, ∃ y st, backend_event.report c.transfer st ∈ events ∧
          s.transferList[c.transfer]? = some y ∧ isActive y = true ∧
          c.pipe = y.transferPipe ∧
          (c.status = usb_status_t.kStatus_USB_TransferCancel ∨
            (c.status = st ∧ c.transfer ∉ s.abortRequests))) ∧
        List.Perm
          ((added.filter (fun c => decide (c.pipe = some p))).map (fun c => c.transfer) ++
            boundTransfers (backendRun s events) p) (boundTransfers s p) ∧
        (∀ (i : Nat) (x : usb_host_transfer_t),
          (backendRun s events).transferList[i]? = some x → isActive x = true →
          ∃ y, s.transferList[i]? = some y ∧ isActive y = true ∧
            y.transferPipe = x.transferPipe) ∧
        (∀ u ∈ (backendRun s events).abortRequests, u ∈ s.abortRequests) ∧
        (∀ u ∈ s.abortRequests, u ∈ (backendRun s events).abortRequests ∨
          ∀ x, (backendRun s events).transferList[u]? = some x → isActive x = false) ∧
        (∀ t st, backend_event.report t st ∈ events →
          ∀ x, (backendRun s events).transferList[t]? = some x → isActive x = false) := by
  intro events
  induction events with
  | nil =>
    intro s
    refine ⟨[], by simp [backendRun], by simp, by simp [backendRun], ?_, fun u hu => hu,
      fun u hu => Or.inl hu, by simp⟩
    intro i x hx hact
    exact ⟨x, hx, hact, rfl⟩
  | cons e rest ih =>
    intro s
    obtain ⟨a0, hlog0, horg0, hperm0, hslot0, hsub0, hkeep0, hdone0⟩ := backendStep_spec p s e
    obtain ⟨a1, hlog1, horg1, hperm1, hslot1, hsub1, hkeep1, hdone1⟩ :=
      ih (backendStep s e)
    have hrun : backendRun s (e :: rest) = backendRun (backendStep s e) rest := rfl
    rw [hrun]
    -- a transfer that is not active after the first event is not active at the end
    have hstay : ∀ (i : Nat),
        (∀ x, (backendStep s e).transferList[i]? = some x → isActive x = false) →
        ∀ x, (backendRun (backendStep s e) rest).transferList[i]? = some x →
          isActive x = false := by
      intro i hin x hx
      cases hax : isActive x with
      | false => rfl
      | true =>
        obtain ⟨y, hy, hay, _⟩ := hslot1 i x hx hax
        rw [hin y hy] at hay
        cases hay
    refine ⟨a0 ++ a1, ?_, ?_, ?_, ?_, ?_, ?_, ?_⟩
    · rw [hlog1, hlog0, List.append_assoc]
    · intro c hc
      rcases List.mem_append.mp hc with h0 | h1
      · obtain ⟨y, st, he, hy, hay, hpipe, hstat⟩ := horg0 c h0
        exact ⟨y, st, by rw [he]; exact List.mem_cons_self _ _, hy, hay, hpipe, hstat⟩
      · obtain ⟨y1, st, hmem, hy1, hay1, hpipe1, hstat1⟩ := horg1 c h1
        obtain ⟨y, hy, hay, hpy⟩ := hslot0 c.transfer y1 hy1 hay1
        refine ⟨y, st, List.mem_cons_of_mem _ hmem, hy, hay, by rw [hpipe1, hpy], ?_⟩
        rcases hstat1 with hc1 | ⟨hst, hnot⟩
        · exact Or.inl hc1
        · right
          refine ⟨hst, ?_⟩
          intro hin
          rcases hkeep0 c.transfer hin with hk | hk
          · exact hnot hk
          · rw [hk y1 hy1] at hay1
            cases hay1
    · rw [List.filter_append, List.map_append, List.append_assoc]
      exact (List.Perm.append_left _ hperm1).trans hperm0
    · intro i x hx hax
      obtain ⟨y1, hy1, hay1, hp1⟩ := hslot1 i x hx hax
      obtain ⟨y, hy, hay, hp0⟩ := hslot0 i y1 hy1 hay1
      exact ⟨y, hy, hay, by rw [hp0, hp1]⟩
    · intro u hu
      exact hsub0 u (hsub1 u hu)
    · intro u hu
      rcases hkeep0 u hu with hk | hk
      · exact hkeep1 u hk
      · exact Or.inr (hstay u hk)
    · intro t st hmem
      rcases List.mem_cons.mp hmem with h | h
      · exact hstay t (hdone0 t st h.symm)
      · exact hdone1 t st h

/-- The task function is the run of the backend that reports the cancel
status for every accepted abort. -/
theorem USB_HostTaskFunction_eq_backendRun (s : usb_host_instance_t) :
    USB_HostTaskFunction s =
      backendRun { s with abortRequests := [] }
        (s.abortRequests.map
          (fun i => backend_event.report i usb_status_t.kStatus_USB_TransferCancel)) := by
  unfold USB_HostTaskFunction backendRun
  rw [List.foldl_map]
  rfl

end UsbHost

namespace UsbHost

/-- C10: for every open pipe with `N` transfers bound to it (`Queued` or
`InFlight`), `USB_HostCancelTransfer` with a null transfer succeeds, asks
the backend to abort these transfers and changes nothing else (no callback
yet, the pools as they were); whatever the backend does next
(transfers taken in flight, results reported), once the task function has
run, the completion callbacks added for the pipe are exactly `N`, one for
each of these transfers, each with `kStatus_USB_TransferCancel`, and no
transfer is bound to the pipe any more. The cancel causes no other
callback: a callback added for another pipe is for a transfer whose abort
was accepted before the call or whose result the backend reported, so that
with no abort pending and no result reported the callbacks added are `N`
in all. -/
theorem USB_HostCancelTransfer_all (host : usb_host_instance_t) (p : Nat) (q : usb_host_pipe_t)
    (N : Nat) (events : List backend_event) (hp : host.pipeList[p]? = some q)
    (hopen : q.open_ ≠ 0) (hN : (boundTransfers host p).length = N) :
    (USB_HostCancelTransfer host (some p) none).1 = usb_status_t.kStatus_USB_Success ∧
    (USB_HostCancelTransfer host (some p) none).2.callbackLog = host.callbackLog ∧
    (USB_HostCancelTransfer host (some p) none).2.transferList = host.transferList ∧
    (USB_HostCancelTransfer host (some p) none).2.pipeList = host.pipeList ∧
    (USB_HostCancelTransfer host (some p) none).2.abortRequests =
      host.abortRequests ++ boundTransfers host p ∧
    ∃ added : List transfer_callback,
      (USB_HostTaskFunction
        (backendRun (USB_HostCancelTransfer host (some p) none).2 events)).callbackLog =
        host.callbackLog ++ added ∧
      (added.filter (fun c => decide (c.pipe = some p))).length = N ∧
      List.Perm ((added.filter (fun c => decide (c.pipe = some p))).map (fun c => c.transfer))
        (boundTransfers host p) ∧
      (∀ c ∈ added, c.pipe = some p → c.status = usb_status_t.kStatus_USB_TransferCancel) ∧
      (∀ c ∈ added, c.pipe ≠ some p →
        c.transfer ∈ host.abortRequests ∨ ∃ st, backend_event.report c.transfer st ∈ events) ∧
      (host.abortRequests = [] → (∀ t st, backend_event.report t st ∉ events) →
        added.length = N) ∧
      boundTransfers
        (USB_HostTaskFunction
          (backendRun (USB_HostCancelTransfer host (some p) none).2 events)) p = [] := by
  have hcancel : USB_HostCancelTransfer host (some p) none =
      (usb_status_t.kStatus_USB_Success,
        { host with abortRequests := host.abortRequests ++ boundTransfers host p }) := by
    simp [USB_HostCancelTransfer, hp, hopen]
  rw [hcancel]
  refine ⟨rfl, rfl, rfl, rfl, rfl, ?_⟩
  simp only []
  rw [USB_HostTaskFunction_eq_backendRun]
  obtain ⟨a1, hlog1, horg1, hperm1, hslot1, hsub1, hkeep1, _⟩ :=
    backendRun_spec p events
      { host with abortRequests := host.abortRequests ++ boundTransfers host p }
  obtain ⟨a2, hlog2, horg2, hperm2, hslot2, _, _, hdone2⟩ :=
    backendRun_spec p
      ((backendRun { host with abortRequests := host.abortRequests ++ boundTransfers host p }
          events).abortRequests.map
        (fun i => backend_event.report i usb_status_t.kStatus_USB_TransferCancel))
      { backendRun { host with abortRequests := host.abortRequests ++ boundTransfers host p }
          events with abortRequests := [] }
  -- a transfer that is active after the events of the backend, on the pipe, was bound
  have hB : ∀ (t : Nat) (y : usb_host_transfer_t),
      (backendRun { host with abortRequests := host.abortRequests ++ boundTransfers host p }
        events).transferList[t]? = some y → isActive y = true → y.transferPipe = some p →
      t ∈ boundTransfers host p := by
    intro t y hy hay hpy
    obtain ⟨z, hz, haz, hpz⟩ := hslot1 t y hy hay
    exact (mem_boundTransfers host p t).mpr
      ⟨z, hz, (isBound_isActive p z).mpr ⟨haz, by rw [hpz, hpy]⟩⟩
  -- no transfer stays bound
  have hnone : boundTransfers
      (backendRun
        { backendRun { host with abortRequests := host.abortRequests ++ boundTransfers host p }
            events with abortRequests := [] }
        ((backendRun { host with abortRequests := host.abortRequests ++ boundTransfers host p }
            events).abortRequests.map
          (fun i => backend_event.report i usb_status_t.kStatus_USB_TransferCancel))) p =
      [] := by
    apply List.eq_nil_iff_forall_not_mem.mpr
    intro t ht
    obtain ⟨x, hx, hbx⟩ := (mem_boundTransfers _ p t).mp ht
    obtain ⟨hax, hpx⟩ := (isBound_isActive p x).mp hbx
    obtain ⟨y, hy, hay, hpy⟩ := hslot2 t x hx hax
    have htB : t ∈ boundTransfers host p := hB t y hy hay (by rw [hpy, hpx])
    have hreq : t ∈ (backendRun
        { host with abortRequests := host.abortRequests ++ boundTransfers host p }
        events).abortRequests := by
      rcases hkeep1 t (List.mem_append_right _ htB) with hk | hk
      · exact hk
      · rw [hk y hy] at hay
        cases hay
    have hin := hdone2 t usb_status_t.kStatus_USB_TransferCancel
      (List.mem_map.mpr ⟨t, hreq, rfl⟩) x hx
    rw [hin] at hax
    cases hax
  rw [hnone, List.append_nil] at hperm2
  have hperm : List.Perm
      (((a1 ++ a2).filter (fun c => decide (c.pipe = some p))).map (fun c => c.transfer))
      (boundTransfers host p) := by
    rw [List.filter_append, List.map_append]
    exact (List.Perm.append_left _ hperm2).trans hperm1
  have hcause : ∀ c ∈ a1 ++ a2, c.pipe ≠ some p →
      c.transfer ∈ host.abortRequests ∨
        ∃ st, backend_event.report c.transfer st ∈ events := by
    intro c hc hpc
    rcases List.mem_append.mp hc with h1 | h2
    · obtain ⟨_, st, hmem, _⟩ := horg1 c h1
      exact Or.inr ⟨st, hmem⟩
    · obtain ⟨y, st, hmem, hy, hay, hpy, _⟩ := horg2 c h2
      obtain ⟨t, ht, hrep⟩ := List.mem_map.mp hmem
      left
      have heq : t = c.transfer := by
        cases hrep
        rfl
      rw [heq] at ht
      rcases List.mem_append.mp (hsub1 c.transfer ht) with hold | hnew
      · exact hold
      · obtain ⟨z, hz, hbz⟩ := (mem_boundTransfers host p c.transfer).mp hnew
        obtain ⟨z1, hz1, _, hpz1⟩ := hslot1 c.transfer y hy hay
        rw [hz] at hz1
        cases hz1
        exact absurd (by rw [hpy, ← hpz1]; exact ((isBound_isActive p z).mp hbz).2) hpc
  refine ⟨a1 ++ a2, ?_, ?_, hperm, ?_, hcause, ?_, hnone⟩
  · rw [hlog2]
    simp only []
    rw [hlog1, List.append_assoc]
  · have hlen := hperm.length_eq
    rw [List.length_map, hN] at hlen
    exact hlen
  · intro c hc hpc
    rcases List.mem_append.mp hc with h1 | h2
    · obtain ⟨y, st, _, hy, hay, hpy, hstat⟩ := horg1 c h1
      rcases hstat with hcan | ⟨_, hnot⟩
      · exact hcan
      · have htB : c.transfer ∈ boundTransfers host p :=
          (mem_boundTransfers host p c.transfer).mpr
            ⟨y, hy, (isBound_isActive p y).mpr ⟨hay, by rw [← hpy, hpc]⟩⟩
        exact absurd (List.mem_append_right _ htB) hnot
    · obtain ⟨_, st, hmem, _, _, _, hstat⟩ := horg2 c h2
      obtain ⟨t, _, hrep⟩ := List.mem_map.mp hmem
      cases hrep
      rcases hstat with hcan | ⟨hst, _⟩
      · exact hcan
      · exact hst
  · intro hold hnorep
    have hall : ∀ c ∈ a1 ++ a2, decide (c.pipe = some p) = true := by
      intro c hc
      by_contra hpc
      have hne : c.pipe ≠ some p := by simpa using hpc
      rcases hcause c hc hne with h | ⟨st, h⟩
      · rw [hold] at h
        cases h
      · exact hnorep c.transfer st h
    have hfil : (a1 ++ a2).filter (fun c => decide (c.pipe = some p)) = a1 ++ a2 :=
      List.filter_eq_self.mpr hall
    have hlen := hperm.length_eq
    rw [List.length_map, hfil, hN] at hlen
    exact hlen

end UsbHost

namespace UsbHost

/-- C10, on pipe 0 of `hostTwoTransfers`, which has one transfer in flight
and one queued, when the backend reports a successful result for the first
one between the cancel and the task function: two callbacks, both with the
cancel status; and on pipe 1 of `hostTwoPipes`, which has one transfer,
with nothing else going on: one callback in all, although pipe 0 has two
transfers. -/
theorem USB_HostCancelTransfer_all_witness :
    (∃ added : List transfer_callback,
      (USB_HostTaskFunction
        (backendRun (USB_HostCancelTransfer hostTwoTransfers (some 0) none).2
          [backend_event.issue 1,
            backend_event.report 0 usb_status_t.kStatus_USB_Success])).callbackLog =
        hostTwoTransfers.callbackLog ++ added ∧
      (added.filter (fun c => decide (c.pipe = some 0))).length = 2 ∧
      (∀ c ∈ added, c.pipe = some 0 → c.status = usb_status_t.kStatus_USB_TransferCancel) ∧
      boundTransfers
        (USB_HostTaskFunction
          (backendRun (USB_HostCancelTransfer hostTwoTransfers (some 0) none).2
            [backend_event.issue 1,
              backend_event.report 0 usb_status_t.kStatus_USB_Success])) 0 = []) ∧
    (∃ added : List transfer_callback,
      (USB_HostTaskFunction
        (backendRun (USB_HostCancelTransfer hostTwoPipes (some 1) none).2 [])).callbackLog =
        hostTwoPipes.callbackLog ++ added ∧
      added.length = 1) :=
  ⟨match (USB_HostCancelTransfer_all hostTwoTransfers 0 (pipeOfInit bulkPipeInit) 2
        [backend_event.issue 1, backend_event.report 0 usb_status_t.kStatus_USB_Success]
        (by decide) (by decide) (by decide)).2.2.2.2.2 with
    | ⟨added, hlog, hlen, _, hstatus, _, _, hnone⟩ => ⟨added, hlog, hlen, hstatus, hnone⟩,
   match (USB_HostCancelTransfer_all hostTwoPipes 1 (pipeOfInit bulkPipeInit) 1 []
        (by decide) (by decide) (by decide)).2.2.2.2.2 with
    | ⟨added, hlog, _, _, _, _, hexact, _⟩ =>
      ⟨added, hlog, hexact (by decide) (by simp)⟩⟩

end UsbHost
